import Mathlib

/-!
Verification development for the hybrid student-tutor recommender implemented
in `backend/ML-services/improved_recommendation.py`.

The Python code is shallowly embedded: machine floats are modelled as
rationals, numpy arrays as lists or index functions, Python dicts as
association functions built by folding, and functions that can raise as
`Option`- or `Except`-valued functions.  The two transcendental library
routines the code calls, `np.exp` and the square root inside
`np.linalg.norm`, are passed as explicit function parameters (`expf`,
`sqrtf`): every theorem below either holds for all values of these
parameters or assumes exactly the property of the real function it needs
(for example that the exponential is nonnegative).  The pseudo-random draws
(`RNG.normal` tie-break noise, `RNG.choice` negative sampling) are likewise
passed as explicit parameters, so each theorem quantifies over all possible
draws.
-/

/-! ## Constant domain sets (module-level constants of the Python file) -/

def SUBJECTS : List String := ["math", "english", "science", "history", "programming", "art"]

def LEVELS : List String := ["primary", "middle", "high", "college"]

def CITIES : List String := ["NYC", "LA", "SF", "CHI", "SEA"]

def LEARNING_STYLES : List String := ["visual", "auditory", "kinesthetic", "reading"]

def TEACHING_STYLES : List String := LEARNING_STYLES

/-! ## Data records -/

/-- A student record, as produced by `gen_students` / consumed everywhere. -/
structure Student where
  student_id : String
  preferred_subject : String
  preferred_level : String
  location : String
  availability : Nat
  learning_style : String
  max_budget : ℚ
  profile_text : String
deriving DecidableEq

/-- A tutor record, as produced by `gen_tutors` / consumed everywhere. -/
structure Tutor where
  tutor_id : String
  subject_specialization : String
  teaching_level : String
  tutor_location : String
  available_slots : Nat
  teaching_style : String
  hourly_rate : ℚ
  profile_text : String
deriving DecidableEq

/-- An implicit interaction record. -/
structure Interaction where
  student_id : String
  tutor_id : String
  interaction_type : String
deriving DecidableEq

/-! ## Python dict comprehensions

A dict comprehension over an indexed traversal (later entries overwrite
earlier ones) is modelled by `buildDictAux keys i0`, which maps a key to the
index of its last occurrence (offset by `i0`). -/

def buildDictAux : List String → Nat → String → Option Nat
  | [], _, _ => none
  | k :: ks, i0, q =>
    match buildDictAux ks (i0 + 1) q with
    | some j => some j
    | none => if q = k then some i0 else none

/-- The dict comprehension of the form `{x: i for i, x in enumerate(keys)}`. -/
def buildDict (keys : List String) : String → Option Nat :=
  buildDictAux keys 0

/-- Python `d[k]` on a dict: raises `KeyError` when the key is absent. -/
def dictGet {α : Type} (o : Option α) : Except String α :=
  o.elim (.error "KeyError") .ok

/-! ## Text similarity (`compute_tfidf_similarity`) -/

/-- Splits a character list on whitespace runs, dropping empty tokens: the
behaviour of Python's `str.split()` with no argument.  The accumulator holds
the current token reversed. -/
def splitWsAux : List Char → List Char → List (List Char)
  | [], acc => if acc = [] then [] else [acc.reverse]
  | c :: cs, acc =>
    if c.isWhitespace then
      (if acc = [] then splitWsAux cs [] else acc.reverse :: splitWsAux cs [])
    else splitWsAux cs (c :: acc)

/-- `doc.lower().split()` as a word multiset, then collapsed to a set:
the Python code builds `set(doc.lower().split())`. -/
def wordSet (doc : String) : Finset String :=
  ((splitWsAux (doc.data.map Char.toLower) []).map String.mk).toFinset

/-- `compute_tfidf_similarity`: Jaccard similarity of the two word sets,
`0.0` when the union is empty. -/
def compute_tfidf_similarity (doc1 doc2 : String) : ℚ :=
  let words1 := wordSet doc1
  let words2 := wordSet doc2
  let inter := (words1 ∩ words2).card
  let uni := (words1 ∪ words2).card
  if 0 < uni then (inter : ℚ) / (uni : ℚ) else 0

/-- Modelled from the spec: the text-similarity score is the word-set Jaccard
similarity between the two profile descriptions — intersection size over
union size of the lower-cased whitespace-tokenized word sets, `0` when the
union of word sets is empty.  Stated separately to compare with the code's
`compute_tfidf_similarity`. -/
def jaccard_text_similarity (doc1 doc2 : String) : ℚ :=
  if ((wordSet doc1) ∪ (wordSet doc2)) = ∅ then 0
  else ((wordSet doc1) ∩ (wordSet doc2)).card / (((wordSet doc1) ∪ (wordSet doc2)).card : ℚ)

/-! ## Feature computation -/

/-- `time_overlap_mask`: 1 when the two availability bitmasks intersect. -/
def time_overlap_mask (a_mask b_mask : Nat) : Nat :=
  if Nat.land a_mask b_mask ≠ 0 then 1 else 0

/-- `style_similarity`: binary match of learning and teaching style. -/
def style_similarity (learn teach : String) : ℚ :=
  if learn = teach then 1 else 0

/-- Python `{s: i for i, s in enumerate(dom)}.get(x, 0)`. -/
def mapGetD (dom : List String) (x : String) : Nat :=
  (buildDict dom x).getD 0

/-- The 11-feature vector computed for one (student, tutor) pair: the body of
the loop in `compute_pair_features`. -/
def pairFeatureVector (s : Student) (t : Tutor) : Fin 11 → ℚ :=
  ![if s.preferred_subject = t.subject_specialization then 1 else 0,
    if s.preferred_level = t.teaching_level then 1 else 0,
    if s.location = t.tutor_location then 1 else 0,
    (time_overlap_mask s.availability t.available_slots : ℚ),
    style_similarity s.learning_style t.teaching_style,
    if t.hourly_rate ≤ s.max_budget then 1 else 0,
    (mapGetD SUBJECTS s.preferred_subject : ℚ) / (SUBJECTS.length : ℚ),
    (mapGetD LEVELS s.preferred_level : ℚ) / (LEVELS.length : ℚ),
    (mapGetD CITIES s.location : ℚ) / (CITIES.length : ℚ),
    (mapGetD LEARNING_STYLES s.learning_style : ℚ) / (LEARNING_STYLES.length : ℚ),
    compute_tfidf_similarity s.profile_text t.profile_text]

/-- `compute_pair_features` over parallel index arrays; `none` models the
`IndexError` a Python list raises on an out-of-range index. -/
def compute_pair_features (students : List Student) (tutors : List Tutor)
    (pair_s_idx pair_t_idx : List Nat) : Option (List (Fin 11 → ℚ)) :=
  (pair_s_idx.zip pair_t_idx).mapM (fun p => do
    let s ← students.get? p.1
    let t ← tutors.get? p.2
    pure (pairFeatureVector s t))

/-! ## Logistic regression from scratch

`np.exp` is transcendental, so it is passed as the explicit parameter
`expf`; every theorem below either holds for all `expf` or assumes only that
`expf` is nonnegative, which the real exponential satisfies. -/

/-- `np.clip(z, lo, hi)`. -/
def npClip (z lo hi : ℚ) : ℚ := min hi (max lo z)

/-- `LogisticRegressionFromScratch.sigmoid`: input clipped to `[-500, 500]`
before exponentiation. -/
def sigmoid (expf : ℚ → ℚ) (z : ℚ) : ℚ :=
  1 / (1 + expf (-(npClip z (-500) 500)))

/-- One row of `predict_proba`: `sigmoid(x @ w + b)`. -/
def predictProbaRow (expf : ℚ → ℚ) (w : Fin 11 → ℚ) (b : ℚ) (x : Fin 11 → ℚ) : ℚ :=
  sigmoid expf (∑ j, x j * w j + b)

/-- `LogisticRegressionFromScratch.predict_proba` over a feature matrix. -/
def predict_proba (expf : ℚ → ℚ) (w : Fin 11 → ℚ) (b : ℚ) (X : List (Fin 11 → ℚ)) : List ℚ :=
  X.map (predictProbaRow expf w b)

/-- The label vector as the gradient loop reads it: when `len(y)` equals the
row count it is indexed elementwise, and when `len(y) = 1` numpy broadcasts
its single element across all rows. -/
def yBroadcast (X : List (Fin 11 → ℚ)) (y : List ℚ) : Nat → ℚ :=
  fun i => if y.length = X.length then y.getD i 0 else y.getD 0 0

/-- One iteration of the full-batch gradient-descent loop in
`LogisticRegressionFromScratch.fit`. -/
def lrStep (expf : ℚ → ℚ) (lr l2 : ℚ) (X : List (Fin 11 → ℚ)) (yB : Nat → ℚ)
    (wb : (Fin 11 → ℚ) × ℚ) : (Fin 11 → ℚ) × ℚ :=
  let n := X.length
  let err : Nat → ℚ := fun i => predictProbaRow expf wb.1 wb.2 (X.getD i (fun _ => 0)) - yB i
  let dw : Fin 11 → ℚ := fun j =>
    (∑ i ∈ Finset.range n, (X.getD i (fun _ => 0)) j * err i) / (n : ℚ) + l2 * wb.1 j
  let db : ℚ := (∑ i ∈ Finset.range n, err i) / (n : ℚ)
  (fun j => wb.1 j - lr * dw j, wb.2 - lr * db)

/-- `LogisticRegressionFromScratch.fit`.  There is no explicit shape check in
the Python code: `y_pred - y` and the subsequent `X.T @ error` raise a numpy
broadcasting error exactly when `len(y)` is neither the row count of `X` nor
`1`; a length-1 `y` broadcasts silently.  Weights start at zero and the loop
runs a fixed number of iterations. -/
def lrFit (expf : ℚ → ℚ) (lr l2 : ℚ) (iterations : Nat)
    (X : List (Fin 11 → ℚ)) (y : List ℚ) : Except String ((Fin 11 → ℚ) × ℚ) :=
  if y.length = X.length ∨ y.length = 1 then
    .ok ((lrStep expf lr l2 X (yBroadcast X y))^[iterations] (fun _ => 0, 0))
  else .error "operands could not be broadcast together"

/-! ## Implicit collaborative filtering -/

/-- One loop iteration of `build_interaction_matrix`: look both ids up
(raising `KeyError` on an unknown id) and write `1.0` at that position. -/
def interactionWrite (sid_to_idx tid_to_idx : String → Option Nat)
    (M : Nat → Nat → ℚ) (inter : Interaction) : Except String (Nat → Nat → ℚ) := do
  let sidx ← dictGet (sid_to_idx inter.student_id)
  let tidx ← dictGet (tid_to_idx inter.tutor_id)
  pure (fun a b => if a = sidx then if b = tidx then 1 else M a b else M a b)

/-- `ImplicitCollaborativeFiltering.build_interaction_matrix`: a zero matrix
with entry `[sidx, tidx]` set to `1.0` for every interaction; a lookup of an
unknown id raises `KeyError`. -/
def build_interaction_matrix (interactions : List Interaction)
    (sid_to_idx tid_to_idx : String → Option Nat) : Except String (Nat → Nat → ℚ) :=
  interactions.foldlM (interactionWrite sid_to_idx tid_to_idx) (fun _ _ => 0)

/-- `ImplicitCollaborativeFiltering.compute_tutor_similarities`.  The column
norm `np.linalg.norm(A, axis=0)` is the square root of the sum of squared
column entries; the square root is transcendental over ℚ and is passed as the
parameter `sqrtf` (every theorem about this definition holds for all
`sqrtf`).  Zero norms and zero denominators are replaced by `eps = 1e-8`,
and the diagonal is zeroed after the division. -/
def compute_tutor_similarities (sqrtf : ℚ → ℚ) (M : Nat → Nat → ℚ)
    (nS : Nat) : Nat → Nat → ℚ :=
  let norm0 : Nat → ℚ := fun j => sqrtf (∑ s ∈ Finset.range nS, (M s j) ^ 2)
  let norms : Nat → ℚ := fun j => if norm0 j = 0 then 1 / 10 ^ 8 else norm0 j
  fun i j =>
    if i = j then 0
    else
      (∑ s ∈ Finset.range nS, M s i * M s j) /
        (if norms i * norms j = 0 then 1 / 10 ^ 8 else norms i * norms j)

/-- The state of a fitted `ImplicitCollaborativeFiltering` instance.  The
field `nT` records the column count of the interaction matrix, which numpy
keeps in the array shape. -/
structure CFModel where
  similarity_matrix : Nat → Nat → ℚ
  sid_to_idx : String → Option Nat
  tid_to_idx : String → Option Nat
  interaction_matrix : Nat → Nat → ℚ
  nT : Nat

/-- `ImplicitCollaborativeFiltering.scores_for_student`: the student's
interaction row projected through the similarity matrix, with every already
interacted position (row entry `> 0`) overwritten by `0.0`; `none` models
the `KeyError` on an unknown student id. -/
def scores_for_student (cf : CFModel) (student_id : String) : Option (List ℚ) :=
  (cf.sid_to_idx student_id).map (fun sidx =>
    (List.range cf.nT).map (fun t =>
      if 0 < cf.interaction_matrix sidx t then 0
      else ∑ j ∈ Finset.range cf.nT, cf.interaction_matrix sidx j * cf.similarity_matrix j t))

/-! ## Hybrid recommender -/

/-- The state of a fitted `HybridTutorRecommender` instance. -/
structure HybridModel where
  lr_weights : Fin 11 → ℚ
  lr_bias : ℚ
  cf : CFModel
  alpha : ℚ
  students : List Student
  tutors : List Tutor
  sid_to_idx : String → Option Nat
  tid_to_idx : String → Option Nat
  idx_to_tid : Nat → Option String

/-- `build_id_maps` component `sid_to_idx`. -/
def sidToIdxOf (students : List Student) : String → Option Nat :=
  buildDict (students.map (fun s => s.student_id))

/-- `build_id_maps` component `tid_to_idx`. -/
def tidToIdxOf (tutors : List Tutor) : String → Option Nat :=
  buildDict (tutors.map (fun t => t.tutor_id))

/-- `build_id_maps` component `idx_to_tid`: defined on indices below the
tutor count. -/
def idxToTidOf (tutors : List Tutor) : Nat → Option String :=
  fun i => (tutors.get? i).map (fun t => t.tutor_id)

/-- `HybridTutorRecommender.fit` with the constructor's hyperparameters
(`lr=0.1, iterations=2000, l2=0.01`, blend weight `alpha`): trains the
logistic-regression sub-model, builds the interaction matrix and the tutor
similarity matrix, and stores the id maps. -/
def hybridFit (expf sqrtf : ℚ → ℚ) (alpha : ℚ) (students : List Student)
    (tutors : List Tutor) (X_features : List (Fin 11 → ℚ)) (y_labels : List ℚ)
    (interactions_train : List Interaction) : Except String HybridModel := do
  let sidIdx := sidToIdxOf students
  let tidIdx := tidToIdxOf tutors
  let wb ← lrFit expf (1/10) (1/100) 2000 X_features y_labels
  let M ← build_interaction_matrix interactions_train sidIdx tidIdx
  let S := compute_tutor_similarities sqrtf M students.length
  .ok { lr_weights := wb.1
        lr_bias := wb.2
        cf := { similarity_matrix := S
                sid_to_idx := sidIdx
                tid_to_idx := tidIdx
                interaction_matrix := M
                nT := tutors.length }
        alpha := alpha
        students := students
        tutors := tutors
        sid_to_idx := sidIdx
        tid_to_idx := tidIdx
        idx_to_tid := idxToTidOf tutors }

/-- Fallback records for the unreachable out-of-range branch of a Python
list index already known to be in range. -/
def defaultStudent : Student :=
  { student_id := "", preferred_subject := "", preferred_level := "", location := ""
    availability := 0, learning_style := "", max_budget := 0, profile_text := "" }

def defaultTutor : Tutor :=
  { tutor_id := "", subject_specialization := "", teaching_level := "", tutor_location := ""
    available_slots := 0, teaching_style := "", hourly_rate := 0, profile_text := "" }

/-- `HybridTutorRecommender.lr_scores_for_student`: content-based match
probabilities against every tutor. -/
def lr_scores_for_student (expf : ℚ → ℚ) (m : HybridModel) (student_idx : Nat) : List ℚ :=
  (List.range m.tutors.length).map (fun ti =>
    predictProbaRow expf m.lr_weights m.lr_bias
      (pairFeatureVector (m.students.getD student_idx defaultStudent)
        (m.tutors.getD ti defaultTutor)))

/-- `np.max` of a vector: raises on an empty array. -/
def npMax : List ℚ → Option ℚ
  | [] => none
  | x :: xs => some (xs.foldl max x)

/-- `np.min` of a vector: raises on an empty array. -/
def npMin : List ℚ → Option ℚ
  | [] => none
  | x :: xs => some (xs.foldl min x)

/-- The `normalize_agg` closure inside `recommend`: min-max normalization,
with a constant `0.1` vector substituted when the range is below `1e-12`;
`none` models the `ValueError` numpy raises when reducing an empty array. -/
def normalize_agg (v : List ℚ) : Option (List ℚ) := do
  let vmax ← npMax v
  let vmin ← npMin v
  if vmax - vmin < 1 / 10 ^ 12 then pure (v.map (fun _ => 1 / 10))
  else pure (v.map (fun z => (z - vmin) / (vmax - vmin)))

/-- The blended, noise-injected, seen-masked score vector of `recommend`;
`⊥` is the `-np.inf` written over already-interacted tutors. -/
def combinedScores (m : HybridModel) (noise : Nat → ℚ) (sidx : Nat)
    (lr_n cf_n : List ℚ) : Nat → WithBot ℚ :=
  fun t =>
    if 0 < m.cf.interaction_matrix sidx t then (⊥ : WithBot ℚ)
    else ((m.alpha * lr_n.getD t 0 + (1 - m.alpha) * cf_n.getD t 0 + noise t : ℚ) : WithBot ℚ)

/-- `np.argsort(-combined)`: indices ordered by descending score.  numpy's
default introselect agrees with any comparison sort on the relative order of
distinct keys, which is all any property below depends on; insertion sort
gives a concrete executable embedding. -/
def argsortDesc (v : Nat → WithBot ℚ) (n : Nat) : List Nat :=
  @List.insertionSort Nat (fun i j => v j ≤ v i) (fun _ _ => inferInstance) (List.range n)

/-- `HybridTutorRecommender.recommend`.  The per-call Gaussian tie-break
noise is the explicit parameter `noise`. -/
def recommend (expf : ℚ → ℚ) (noise : Nat → ℚ) (m : HybridModel)
    (student_id : String) (top_n : Nat) : Except String (List (String × WithBot ℚ)) := do
  let sidx ← dictGet (m.sid_to_idx student_id)
  let lr_scores := lr_scores_for_student expf m sidx
  let cf_scores ← dictGet (scores_for_student m.cf student_id)
  let lr_n ← (normalize_agg lr_scores).elim (.error "zero-size array reduction") .ok
  let cf_n ← (normalize_agg cf_scores).elim (.error "zero-size array reduction") .ok
  let combined := combinedScores m noise sidx lr_n cf_n
  let top_items := (argsortDesc combined m.cf.nT).take top_n
  top_items.mapM (fun i => do
    let tid ← dictGet (m.idx_to_tid i)
    pure (tid, combined i))

/-- `HybridTutorRecommender.get_student_profile`. -/
def get_student_profile (m : HybridModel) (student_id : String) : Except String Student := do
  let sidx ← dictGet (m.sid_to_idx student_id)
  dictGet (m.students.get? sidx)

/-- `HybridTutorRecommender.get_tutor_profile`. -/
def get_tutor_profile (m : HybridModel) (tutor_id : String) : Except String Tutor := do
  let tidx ← dictGet (m.tid_to_idx tutor_id)
  dictGet (m.tutors.get? tidx)

/-! ## Dataset utilities (`sample_lr_dataset`) -/

/-- Keys of a `defaultdict` in Python iteration order: order of first
insertion. -/
def firstOccKeys (xs : List Nat) : List Nat :=
  xs.foldl (fun acc x => if x ∈ acc then acc else acc ++ [x]) []

/-- The set `interacted[s]` of tutor indices the student with index `s` has a
positive pair with, as a duplicate-free list. -/
def interactedSet (pos : List (Nat × Nat)) (s : Nat) : List Nat :=
  ((pos.filter (fun p => p.1 = s)).map (fun p => p.2)).dedup

/-- The negative-sampling loop of `sample_lr_dataset`, producing the sampled
`(student index, tutor index)` negative pairs.  The call
`RNG.choice(available, size=choose, replace=False)` is the explicit
parameter `pick available choose`; every theorem about this definition
assumes only the numpy contract for a without-replacement draw (a
duplicate-free selection from `available`). -/
def sampleNegativePairs (pick : List Nat → Nat → List Nat) (nT : Nat)
    (neg_ratio : ℚ) (pos : List (Nat × Nat)) : List (Nat × Nat) :=
  (firstOccKeys (pos.map (fun p => p.1))).flatMap (fun s =>
    let pos_count := (interactedSet pos s).length
    let num_negs := (max 1 (neg_ratio * (pos_count : ℚ))).floor.toNat
    let available := (List.range nT).filter (fun t => t ∉ interactedSet pos s)
    if available = [] then []
    else (pick available (min available.length num_negs)).map (fun t => (s, t)))

/-- `sample_lr_dataset`: positive pairs from the interaction list (raising on
an unknown id), sampled negative pairs, stacked features, labels and the two
parallel index arrays. -/
def sample_lr_dataset (pick : List Nat → Nat → List Nat) (students : List Student)
    (tutors : List Tutor) (interactions_pos : List Interaction)
    (sid_to_idx tid_to_idx : String → Option Nat) (neg_ratio : ℚ) :
    Except String (List (Fin 11 → ℚ) × List ℚ × List Nat × List Nat) := do
  let pos ← interactions_pos.mapM (fun inter => do
    let s ← dictGet (sid_to_idx inter.student_id)
    let t ← dictGet (tid_to_idx inter.tutor_id)
    pure (s, t))
  let neg := sampleNegativePairs pick tutors.length neg_ratio pos
  let X_pos ← dictGet (compute_pair_features students tutors
    (pos.map (fun p => p.1)) (pos.map (fun p => p.2)))
  let X_neg ← dictGet (compute_pair_features students tutors
    (neg.map (fun p => p.1)) (neg.map (fun p => p.2)))
  let pairs := pos ++ neg
  .ok (X_pos ++ X_neg,
       List.replicate X_pos.length 1 ++ List.replicate X_neg.length 0,
       pairs.map (fun p => p.1), pairs.map (fun p => p.2))

/-! ## Helper lemmas -/

lemma le_foldl_max_init (xs : List ℚ) : ∀ a : ℚ, a ≤ xs.foldl max a := by
  induction xs with
  | nil => intro a; simp
  | cons x xs ih =>
    intro a
    calc a ≤ max a x := le_max_left a x
    _ ≤ xs.foldl max (max a x) := ih (max a x)
    _ = (x :: xs).foldl max a := by simp

lemma mem_le_foldl_max (xs : List ℚ) : ∀ (a z : ℚ), z ∈ xs → z ≤ xs.foldl max a := by
  induction xs with
  | nil => intro a z hz; cases hz
  | cons x xs ih =>
    intro a z hz
    rcases List.mem_cons.mp hz with h | h
    · subst h
      calc z ≤ max a z := le_max_right a z
      _ ≤ xs.foldl max (max a z) := le_foldl_max_init xs (max a z)
      _ = (z :: xs).foldl max a := by simp
    · simpa using ih (max a x) z h

lemma foldl_min_le_init (xs : List ℚ) : ∀ a : ℚ, xs.foldl min a ≤ a := by
  induction xs with
  | nil => intro a; simp
  | cons x xs ih =>
    intro a
    calc (x :: xs).foldl min a = xs.foldl min (min a x) := by simp
    _ ≤ min a x := ih (min a x)
    _ ≤ a := min_le_left a x

lemma foldl_min_le_mem (xs : List ℚ) : ∀ (a z : ℚ), z ∈ xs → xs.foldl min a ≤ z := by
  induction xs with
  | nil => intro a z hz; cases hz
  | cons x xs ih =>
    intro a z hz
    rcases List.mem_cons.mp hz with h | h
    · subst h
      calc (z :: xs).foldl min a = xs.foldl min (min a z) := by simp
      _ ≤ min a z := foldl_min_le_init xs (min a z)
      _ ≤ z := min_le_right a z
    · simpa using ih (min a x) z h

lemma npMax_ge_mem {v : List ℚ} {vmax z : ℚ} (h : npMax v = some vmax) (hz : z ∈ v) :
    z ≤ vmax := by
  cases v with
  | nil => cases hz
  | cons x xs =>
    simp only [npMax, Option.some.injEq] at h
    subst h
    rcases List.mem_cons.mp hz with h | h
    · subst h; exact le_foldl_max_init xs z
    · exact mem_le_foldl_max xs x z h

lemma npMin_le_mem {v : List ℚ} {vmin z : ℚ} (h : npMin v = some vmin) (hz : z ∈ v) :
    vmin ≤ z := by
  cases v with
  | nil => cases hz
  | cons x xs =>
    simp only [npMin, Option.some.injEq] at h
    subst h
    rcases List.mem_cons.mp hz with h | h
    · subst h; exact foldl_min_le_init xs z
    · exact foldl_min_le_mem xs x z h

lemma buildDictAux_lt (keys : List String) :
    ∀ (i0 j : Nat) (q : String), buildDictAux keys i0 q = some j →
      i0 ≤ j ∧ j < i0 + keys.length ∧ keys.get? (j - i0) = some q := by
  induction keys with
  | nil => intro i0 j q h; simp [buildDictAux] at h
  | cons k ks ih =>
    intro i0 j q h
    simp only [buildDictAux] at h
    cases hrec : buildDictAux ks (i0 + 1) q with
    | some j' =>
      rw [hrec] at h
      obtain rfl : j' = j := Option.some.inj h
      obtain ⟨h1, h2, h3⟩ := ih (i0 + 1) j' q hrec
      refine ⟨by omega, by simp; omega, ?_⟩
      have hd : j' - i0 = (j' - (i0 + 1)) + 1 := by omega
      rw [hd]
      simpa using h3
    | none =>
      rw [hrec] at h
      by_cases hq : q = k
      · rw [if_pos hq] at h
        obtain rfl : i0 = j := Option.some.inj h
        refine ⟨le_refl _, by simp, ?_⟩
        simp [hq]
      · simp [hq] at h

lemma buildDictAux_isSome (keys : List String) :
    ∀ (i0 : Nat) (q : String), (buildDictAux keys i0 q).isSome ↔ q ∈ keys := by
  induction keys with
  | nil => intro i0 q; simp [buildDictAux]
  | cons k ks ih =>
    intro i0 q
    simp only [buildDictAux]
    cases hrec : buildDictAux ks (i0 + 1) q with
    | some j' =>
      have : q ∈ ks := by
        have := (ih (i0 + 1) q).mp (by simp [hrec])
        exact this
      simp [this]
    | none =>
      have hq : q ∉ ks := by
        intro hmem
        have := (ih (i0 + 1) q).mpr hmem
        simp [hrec] at this
      by_cases hk : q = k
      · simp [hk]
      · simp [hk, hq]

lemma buildDictAux_of_get (keys : List String) :
    ∀ (i0 off : Nat) (q : String), keys.Nodup → keys.get? off = some q →
      buildDictAux keys i0 q = some (i0 + off) := by
  induction keys with
  | nil => intro i0 off q _ h; simp at h
  | cons k ks ih =>
    intro i0 off q hnd h
    simp only [List.nodup_cons] at hnd
    cases off with
    | zero =>
      simp only [List.get?] at h
      obtain rfl : k = q := Option.some.inj h
      have hnot : k ∉ ks := hnd.1
      have hnone : buildDictAux ks (i0 + 1) k = none := by
        cases hrec : buildDictAux ks (i0 + 1) k with
        | none => rfl
        | some j' =>
          exact absurd ((buildDictAux_isSome ks (i0 + 1) k).mp (by simp [hrec])) hnot
      simp [buildDictAux, hnone]
    | succ off' =>
      simp only [List.get?] at h
      have := ih (i0 + 1) off' q hnd.2 h
      simp only [buildDictAux, this]
      congr 1
      omega

/-! ## Claim C4: similarity-matrix diagonal -/

/-- C4: after every call to `compute_tutor_similarities`, on any interaction
matrix, every diagonal entry of the resulting tutor similarity matrix is
exactly 0 (the code zeroes the diagonal after the cosine division). -/
theorem similarity_diagonal_zero (sqrtf : ℚ → ℚ) (M : Nat → Nat → ℚ) (nS i : Nat) :
    compute_tutor_similarities sqrtf M nS i i = 0 := by
  simp [compute_tutor_similarities]

/-! ## Claim C5: collaborative scores -/

/-- C5: for every collaborative model and known student id,
`scores_for_student` returns, for each tutor the student has not interacted
with, the dot product of the student's interaction row with that tutor's
column of the similarity matrix, and returns exactly 0 (a finite zero, not
negative infinity) for every tutor the student has already interacted
with. -/
theorem scores_for_student_spec (cf : CFModel) (student_id : String) (sidx : Nat)
    (scores : List ℚ) (hsid : cf.sid_to_idx student_id = some sidx)
    (hsc : scores_for_student cf student_id = some scores) :
    scores.length = cf.nT ∧
    ∀ t, t < cf.nT →
      (0 < cf.interaction_matrix sidx t → scores.getD t 0 = 0) ∧
      (¬ 0 < cf.interaction_matrix sidx t →
        scores.getD t 0 = ∑ j ∈ Finset.range cf.nT,
          cf.interaction_matrix sidx j * cf.similarity_matrix j t) := by
  rw [scores_for_student, hsid, Option.map_some'] at hsc
  obtain rfl := (Option.some.inj hsc).symm
  constructor
  · simp
  · intro t ht
    have hget : ((List.range cf.nT).map (fun t =>
        if 0 < cf.interaction_matrix sidx t then (0 : ℚ)
        else ∑ j ∈ Finset.range cf.nT,
          cf.interaction_matrix sidx j * cf.similarity_matrix j t)).getD t 0 =
        (if 0 < cf.interaction_matrix sidx t then (0 : ℚ)
        else ∑ j ∈ Finset.range cf.nT,
          cf.interaction_matrix sidx j * cf.similarity_matrix j t) := by
      rw [List.getD_eq_getElem?_getD, List.getElem?_map, List.getElem?_range ht]
      rfl
    rw [hget]
    constructor
    · intro hpos; rw [if_pos hpos]
    · intro hneg; rw [if_neg hneg]

/-! ## Claim C9: clipped sigmoid and probability bounds -/

/-- C9: for every weight vector, bias and feature matrix, every entry of
`predict_proba` lies in [0, 1], assuming only that the exponential is
nonnegative (true of `np.exp`); moreover the sigmoid's linear input is
clamped to [-500, 500] before the exponential is applied. -/
theorem predict_proba_unit_interval (expf : ℚ → ℚ) (hexp : ∀ z, 0 ≤ expf z)
    (w : Fin 11 → ℚ) (b : ℚ) (X : List (Fin 11 → ℚ)) :
    (∀ p ∈ predict_proba expf w b X, 0 ≤ p ∧ p ≤ 1) ∧
    (∀ z, sigmoid expf z = 1 / (1 + expf (-(npClip z (-500) 500)))) ∧
    (∀ z, -500 ≤ npClip z (-500) 500 ∧ npClip z (-500) 500 ≤ 500) := by
  have hsig : ∀ z, 0 ≤ sigmoid expf z ∧ sigmoid expf z ≤ 1 := by
    intro z
    have he : 0 ≤ expf (-(npClip z (-500) 500)) := hexp _
    have hden : (0 : ℚ) < 1 + expf (-(npClip z (-500) 500)) := by linarith
    constructor
    · exact div_nonneg zero_le_one (le_of_lt hden)
    · rw [sigmoid, div_le_one hden]; linarith
  refine ⟨?_, fun z => rfl, ?_⟩
  · intro p hp
    rw [predict_proba] at hp
    obtain ⟨x, _, rfl⟩ := List.mem_map.mp hp
    exact hsig _
  · intro z
    constructor
    · rw [npClip]
      rcases le_total (500 : ℚ) (max (-500) z) with h | h
      · rw [min_eq_left h]; norm_num
      · rw [min_eq_right h]; exact le_max_left _ _
    · exact min_le_left _ _

/-! ## Claim C3: min-max normalization -/

/-- C3 (amended): `normalize_agg` substitutes the constant vector 0.1
whenever the range `max - min` is below the tolerance `1e-12` (in particular
whenever max equals min, so a constant vector is never divided by zero), and
performs the min-max normalization `(v - min) / (max - min)`, with every
entry in [0, 1], whenever the range is at least `1e-12` — not whenever
`max > min`, as a positive range below the tolerance also takes the constant
branch. -/
theorem normalize_agg_spec (v : List ℚ) (vmax vmin : ℚ)
    (hmax : npMax v = some vmax) (hmin : npMin v = some vmin) :
    (vmax - vmin < 1 / 10 ^ 12 → normalize_agg v = some (v.map (fun _ => 1 / 10))) ∧
    (1 / 10 ^ 12 ≤ vmax - vmin →
      normalize_agg v = some (v.map (fun z => (z - vmin) / (vmax - vmin))) ∧
      ∀ z ∈ v, 0 ≤ (z - vmin) / (vmax - vmin) ∧ (z - vmin) / (vmax - vmin) ≤ 1) := by
  constructor
  · intro hlt
    rw [normalize_agg, hmax, hmin]
    simp only [Option.bind_eq_bind, Option.some_bind]
    rw [if_pos hlt]
    rfl
  · intro hge
    have hnlt : ¬ vmax - vmin < 1 / 10 ^ 12 := not_lt.mpr hge
    have hpos : (0 : ℚ) < vmax - vmin := lt_of_lt_of_le (by norm_num) hge
    refine ⟨?_, ?_⟩
    · rw [normalize_agg, hmax, hmin]
      simp only [Option.bind_eq_bind, Option.some_bind]
      rw [if_neg hnlt]
      rfl
    · intro z hz
      have h1 : vmin ≤ z := npMin_le_mem hmin hz
      have h2 : z ≤ vmax := npMax_ge_mem hmax hz
      constructor
      · exact div_nonneg (by linarith) (le_of_lt hpos)
      · rw [div_le_one hpos]; linarith

/-- C3 counterexample: the vector `[0, 1e-13]` has max strictly greater than
min, yet `normalize_agg` returns the constant 0.1 vector, not
`(v - min) / (max - min)` (which would be `[0, 1]`). -/
theorem normalize_agg_tolerance_cx :
    npMax [(0 : ℚ), 1 / 10 ^ 13] = some (1 / 10 ^ 13) ∧
    npMin [(0 : ℚ), 1 / 10 ^ 13] = some 0 ∧
    (0 : ℚ) < 1 / 10 ^ 13 ∧
    normalize_agg [(0 : ℚ), 1 / 10 ^ 13] = some [1 / 10, 1 / 10] ∧
    normalize_agg [(0 : ℚ), 1 / 10 ^ 13] ≠ some [0, 1] := by
  have hmax : npMax [(0 : ℚ), 1 / 10 ^ 13] = some (1 / 10 ^ 13) := by
    simp only [npMax, List.foldl]
    norm_num
  have hmin : npMin [(0 : ℚ), 1 / 10 ^ 13] = some 0 := by
    simp only [npMin, List.foldl]
    norm_num
  have hnorm : normalize_agg [(0 : ℚ), 1 / 10 ^ 13] = some [1 / 10, 1 / 10] := by
    rw [normalize_agg, hmax, hmin]
    simp only [Option.bind_eq_bind, Option.some_bind]
    rw [if_pos (by norm_num)]
    rfl
  exact ⟨hmax, hmin, by norm_num, hnorm, by rw [hnorm]; intro h; simp at h⟩

/-! ## Claim C6: feature-vector bounds -/

lemma mapGetD_lt_length (dom : List String) (x : String) (hdom : dom ≠ []) :
    mapGetD dom x < dom.length := by
  rw [mapGetD, buildDict]
  cases h : buildDictAux dom 0 x with
  | none =>
    simp only [Option.getD_none]
    exact List.length_pos.mpr hdom
  | some j =>
    simp only [Option.getD_some]
    have := (buildDictAux_lt dom 0 j x h).2.1
    omega

lemma mapGetD_ratio_bounds (dom : List String) (x : String) (hdom : dom ≠ []) :
    0 ≤ (mapGetD dom x : ℚ) / (dom.length : ℚ) ∧
    (mapGetD dom x : ℚ) / (dom.length : ℚ) ≤ 1 := by
  have hlen : (0 : ℚ) < (dom.length : ℚ) := by
    exact_mod_cast List.length_pos.mpr hdom
  constructor
  · exact div_nonneg (by positivity) (le_of_lt hlen)
  · rw [div_le_one hlen]
    exact_mod_cast le_of_lt (mapGetD_lt_length dom x hdom)

lemma tfidf_bounds (d1 d2 : String) :
    0 ≤ compute_tfidf_similarity d1 d2 ∧ compute_tfidf_similarity d1 d2 ≤ 1 := by
  rw [compute_tfidf_similarity]
  by_cases h : 0 < ((wordSet d1) ∪ (wordSet d2)).card
  · simp only [if_pos h]
    have hle : ((wordSet d1) ∩ (wordSet d2)).card ≤ ((wordSet d1) ∪ (wordSet d2)).card :=
      Finset.card_le_card (Finset.inter_subset_union)
    have hpos : (0 : ℚ) < (((wordSet d1) ∪ (wordSet d2)).card : ℚ) := by exact_mod_cast h
    constructor
    · exact div_nonneg (by positivity) (le_of_lt hpos)
    · rw [div_le_one hpos]; exact_mod_cast hle
  · simp only [if_neg h]
    norm_num

lemma tfidf_eq_jaccard (d1 d2 : String) :
    compute_tfidf_similarity d1 d2 = jaccard_text_similarity d1 d2 := by
  rw [compute_tfidf_similarity, jaccard_text_similarity]
  by_cases h : ((wordSet d1) ∪ (wordSet d2)) = ∅
  · rw [if_pos h]
    have : ¬ 0 < ((wordSet d1) ∪ (wordSet d2)).card := by simp [h]
    simp only [if_neg this]
  · rw [if_neg h]
    have : 0 < ((wordSet d1) ∪ (wordSet d2)).card :=
      Finset.card_pos.mpr (Finset.nonempty_iff_ne_empty.mpr h)
    simp only [if_pos this]

/-- C6: for every student and tutor record whose categorical fields come from
the fixed domain sets, every component of the 11-feature vector lies in
[0, 1]; the six match components (indices 0-5) are each exactly 0 or 1; and
the text-similarity component (index 10) equals the word-set Jaccard
similarity of the two profile descriptions, 0 when the union of word sets is
empty. -/
lemma ite01_bounds (c : Prop) [Decidable c] :
    (0 : ℚ) ≤ (if c then 1 else 0) ∧ ((if c then 1 else 0) : ℚ) ≤ 1 := by
  split <;> norm_num

lemma ite01_cast_bounds (c : Prop) [Decidable c] :
    (0 : ℚ) ≤ ((if c then 1 else 0 : Nat) : ℚ) ∧ ((if c then 1 else 0 : Nat) : ℚ) ≤ 1 := by
  split <;> norm_num

lemma ite01_or (c : Prop) [Decidable c] :
    ((if c then 1 else 0 : ℚ) = 0) ∨ ((if c then 1 else 0 : ℚ) = 1) := by
  split
  · right; rfl
  · left; rfl

lemma ite01_cast_or (c : Prop) [Decidable c] :
    (((if c then 1 else 0 : Nat) : ℚ) = 0) ∨ (((if c then 1 else 0 : Nat) : ℚ) = 1) := by
  split <;> norm_num

/-- C6: for every student and tutor record whose categorical fields come from
the fixed domain sets, every component of the 11-feature vector lies in
[0, 1]; the six match components (indices 0-5) are each exactly 0 or 1; and
the text-similarity component (index 10) equals the word-set Jaccard
similarity of the two profile descriptions, 0 when the union of word sets is
empty. -/
theorem pair_features_bounds (s : Student) (t : Tutor)
    (hs1 : s.preferred_subject ∈ SUBJECTS) (hs2 : s.preferred_level ∈ LEVELS)
    (hs3 : s.location ∈ CITIES) (hs4 : s.learning_style ∈ LEARNING_STYLES)
    (ht1 : t.subject_specialization ∈ SUBJECTS) (ht2 : t.teaching_level ∈ LEVELS)
    (ht3 : t.tutor_location ∈ CITIES) (ht4 : t.teaching_style ∈ TEACHING_STYLES) :
    (∀ i : Fin 11, 0 ≤ pairFeatureVector s t i ∧ pairFeatureVector s t i ≤ 1) ∧
    (∀ i : Fin 11, i.val ≤ 5 →
      pairFeatureVector s t i = 0 ∨ pairFeatureVector s t i = 1) ∧
    pairFeatureVector s t 10 = jaccard_text_similarity s.profile_text t.profile_text := by
  have hS : SUBJECTS ≠ [] := by decide
  have hL : LEVELS ≠ [] := by decide
  have hC : CITIES ≠ [] := by decide
  have hY : LEARNING_STYLES ≠ [] := by decide
  refine ⟨?_, ?_, ?_⟩
  · intro i
    fin_cases i
    · exact ite01_bounds _
    · exact ite01_bounds _
    · exact ite01_bounds _
    · exact ite01_cast_bounds _
    · exact ite01_bounds _
    · exact ite01_bounds _
    · exact mapGetD_ratio_bounds SUBJECTS s.preferred_subject hS
    · exact mapGetD_ratio_bounds LEVELS s.preferred_level hL
    · exact mapGetD_ratio_bounds CITIES s.location hC
    · exact mapGetD_ratio_bounds LEARNING_STYLES s.learning_style hY
    · exact tfidf_bounds s.profile_text t.profile_text
  · intro i hi
    fin_cases i
    · exact ite01_or _
    · exact ite01_or _
    · exact ite01_or _
    · exact ite01_cast_or _
    · exact ite01_or _
    · exact ite01_or _
    · exact absurd hi (by decide)
    · exact absurd hi (by decide)
    · exact absurd hi (by decide)
    · exact absurd hi (by decide)
    · exact absurd hi (by decide)
  · exact tfidf_eq_jaccard s.profile_text t.profile_text

/-! ## Except-monad rewriting helpers -/

lemma except_bind_ok {α β : Type} (a : α) (f : α → Except String β) :
    (Except.ok a >>= f) = f a := rfl

lemma except_bind_error {α β : Type} (e : String) (f : α → Except String β) :
    ((Except.error e : Except String α) >>= f) = Except.error e := rfl

lemma except_isOk_ok {α : Type} (a : α) : (Except.ok a : Except String α).isOk = true := rfl

lemma except_isOk_error {α : Type} (e : String) :
    (Except.error e : Except String α).isOk = false := rfl

lemma except_isOk_pure {α : Type} (a : α) : (pure a : Except String α).isOk = true := rfl

lemma except_error_ne_ok {α : Type} (e : String) (a : α) :
    (Except.error e : Except String α) ≠ Except.ok a := by
  intro h
  cases h

/-! ## Success conditions of `fit` -/

lemma lrFit_isOk (expf : ℚ → ℚ) (lr l2 : ℚ) (iterations : Nat)
    (X : List (Fin 11 → ℚ)) (y : List ℚ) :
    (lrFit expf lr l2 iterations X y).isOk = true ↔
      (y.length = X.length ∨ y.length = 1) := by
  rw [lrFit]
  split
  · rename_i h
    rw [except_isOk_ok]
    simp [h]
  · rename_i h
    rw [except_isOk_error]
    simp [h]

lemma build_interaction_go_isOk (sid_to_idx tid_to_idx : String → Option Nat)
    (interactions : List Interaction) :
    ∀ M0 : Nat → Nat → ℚ,
      (interactions.foldlM (interactionWrite sid_to_idx tid_to_idx) M0).isOk = true ↔
        ∀ inter ∈ interactions,
          (sid_to_idx inter.student_id).isSome ∧ (tid_to_idx inter.tutor_id).isSome := by
  induction interactions with
  | nil => intro M0; simp [except_isOk_pure]
  | cons inter rest ih =>
    intro M0
    rw [List.foldlM_cons]
    constructor
    · intro h
      cases hs : sid_to_idx inter.student_id with
      | none =>
        rw [interactionWrite, hs] at h
        simp [dictGet, except_bind_error, except_isOk_error] at h
      | some sidx =>
        cases ht : tid_to_idx inter.tutor_id with
        | none =>
          rw [interactionWrite, hs, ht] at h
          simp [dictGet, except_bind_ok, except_bind_error, except_isOk_error] at h
        | some tidx =>
          rw [interactionWrite, hs, ht] at h
          simp only [dictGet, Option.elim, except_bind_ok] at h
          intro i hi
          rcases List.mem_cons.mp hi with rfl | hi'
          · simp [hs, ht]
          · exact ((ih _).mp h) i hi'
    · intro h
      obtain ⟨h1, h2⟩ := h inter (List.mem_cons_self inter rest)
      obtain ⟨sidx, hs⟩ := Option.isSome_iff_exists.mp h1
      obtain ⟨tidx, ht⟩ := Option.isSome_iff_exists.mp h2
      rw [interactionWrite, hs, ht]
      simp only [dictGet, Option.elim, except_bind_ok]
      exact (ih _).mpr (fun i hi => h i (List.mem_cons_of_mem _ hi))

lemma build_interaction_matrix_isOk (interactions : List Interaction)
    (sid_to_idx tid_to_idx : String → Option Nat) :
    (build_interaction_matrix interactions sid_to_idx tid_to_idx).isOk = true ↔
      ∀ inter ∈ interactions,
        (sid_to_idx inter.student_id).isSome ∧ (tid_to_idx inter.tutor_id).isSome :=
  build_interaction_go_isOk sid_to_idx tid_to_idx interactions _

lemma build_interaction_go_binary (sid_to_idx tid_to_idx : String → Option Nat)
    (interactions : List Interaction) :
    ∀ M0 : Nat → Nat → ℚ, (∀ a b, M0 a b = 0 ∨ M0 a b = 1) →
      ∀ M, interactions.foldlM (interactionWrite sid_to_idx tid_to_idx) M0 = .ok M →
        ∀ a b, M a b = 0 ∨ M a b = 1 := by
  induction interactions with
  | nil =>
    intro M0 h0 M hM
    rw [List.foldlM_nil] at hM
    obtain rfl : M0 = M := Except.ok.inj hM
    exact h0
  | cons inter rest ih =>
    intro M0 h0 M hM
    rw [List.foldlM_cons] at hM
    cases hs : sid_to_idx inter.student_id with
    | none =>
      rw [interactionWrite, hs] at hM
      simp [dictGet, except_bind_error] at hM
    | some sidx =>
      cases ht : tid_to_idx inter.tutor_id with
      | none =>
        rw [interactionWrite, hs, ht] at hM
        simp [dictGet, except_bind_ok, except_bind_error] at hM
      | some tidx =>
        rw [interactionWrite, hs, ht] at hM
        simp only [dictGet, Option.elim, except_bind_ok] at hM
        refine ih _ ?_ M hM
        intro a b
        by_cases ha : a = sidx
        · by_cases hb : b = tidx
          · right; simp [ha, hb]
          · rcases h0 a b with h | h
            · left; simpa [ha, hb] using h
            · right; simpa [ha, hb] using h
        · rcases h0 a b with h | h
          · left; simpa [ha] using h
          · right; simpa [ha] using h

lemma hybridFit_isOk (expf sqrtf : ℚ → ℚ) (alpha : ℚ) (students : List Student)
    (tutors : List Tutor) (X : List (Fin 11 → ℚ)) (y : List ℚ)
    (inters : List Interaction) :
    (hybridFit expf sqrtf alpha students tutors X y inters).isOk = true ↔
      ((y.length = X.length ∨ y.length = 1) ∧
        ∀ inter ∈ inters, (sidToIdxOf students inter.student_id).isSome ∧
          (tidToIdxOf tutors inter.tutor_id).isSome) := by
  rw [hybridFit]
  cases hlr : lrFit expf (1/10) (1/100) 2000 X y with
  | error e =>
    have hsh : ¬ (y.length = X.length ∨ y.length = 1) := by
      intro h
      have := (lrFit_isOk expf (1/10) (1/100) 2000 X y).mpr h
      rw [hlr] at this
      simp [except_isOk_error] at this
    simp only [except_bind_error]
    simp [except_isOk_error, hsh]
  | ok wb =>
    have hsh : y.length = X.length ∨ y.length = 1 := by
      have := lrFit_isOk expf (1/10) (1/100) 2000 X y
      rw [hlr] at this
      exact this.mp rfl
    simp only [except_bind_ok]
    cases hbm : build_interaction_matrix inters (sidToIdxOf students) (tidToIdxOf tutors) with
    | error e =>
      have hids : ¬ ∀ inter ∈ inters, (sidToIdxOf students inter.student_id).isSome ∧
          (tidToIdxOf tutors inter.tutor_id).isSome := by
        intro h
        have := (build_interaction_matrix_isOk inters (sidToIdxOf students) (tidToIdxOf tutors)).mpr h
        rw [hbm] at this
        simp [except_isOk_error] at this
      simp only [except_bind_error]
      simp [except_isOk_error, hids]
    | ok M =>
      have hids : ∀ inter ∈ inters, (sidToIdxOf students inter.student_id).isSome ∧
          (tidToIdxOf tutors inter.tutor_id).isSome := by
        have := build_interaction_matrix_isOk inters (sidToIdxOf students) (tidToIdxOf tutors)
        rw [hbm] at this
        exact this.mp rfl
      simp only [except_bind_ok]
      rw [except_isOk_ok]
      simp only [true_iff]
      exact ⟨hsh, hids⟩

lemma hybridFit_ok_elim {expf sqrtf : ℚ → ℚ} {alpha : ℚ} {students : List Student}
    {tutors : List Tutor} {X : List (Fin 11 → ℚ)} {y : List ℚ}
    {inters : List Interaction} {m : HybridModel}
    (hfit : hybridFit expf sqrtf alpha students tutors X y inters = .ok m) :
    m.students = students ∧ m.tutors = tutors ∧
    m.sid_to_idx = sidToIdxOf students ∧ m.tid_to_idx = tidToIdxOf tutors ∧
    m.idx_to_tid = idxToTidOf tutors ∧
    m.cf.sid_to_idx = sidToIdxOf students ∧ m.cf.tid_to_idx = tidToIdxOf tutors ∧
    m.cf.nT = tutors.length ∧ m.alpha = alpha ∧
    (∀ a b, m.cf.interaction_matrix a b = 0 ∨ m.cf.interaction_matrix a b = 1) := by
  rw [hybridFit] at hfit
  cases hlr : lrFit expf (1/10) (1/100) 2000 X y with
  | error e =>
    rw [hlr, except_bind_error] at hfit
    exact absurd hfit (except_error_ne_ok _ _)
  | ok wb =>
    rw [hlr, except_bind_ok] at hfit
    cases hbm : build_interaction_matrix inters (sidToIdxOf students) (tidToIdxOf tutors) with
    | error e =>
      rw [hbm, except_bind_error] at hfit
      exact absurd hfit (except_error_ne_ok _ _)
    | ok M =>
      rw [hbm, except_bind_ok] at hfit
      obtain rfl := Except.ok.inj hfit
      refine ⟨rfl, rfl, rfl, rfl, rfl, rfl, rfl, rfl, rfl, ?_⟩
      rw [build_interaction_matrix] at hbm
      exact build_interaction_go_binary _ _ inters _ (fun a b => Or.inl rfl) M hbm

/-! ## Claim C2: when `fit` raises -/

/-- C2 (amended): `fit` completes exactly when the shapes are compatible
under numpy broadcasting and every interaction references known ids.  A
mismatch between the row count of `X_train` and `len(y_train)` raises —
except when `len(y_train) = 1`, which numpy silently broadcasts across all
rows, so that particular mismatch does not raise; an interaction with a
student or tutor id absent from the id maps always raises; matching shapes
with known ids always complete. -/
theorem fit_raises_iff (expf sqrtf : ℚ → ℚ) (alpha : ℚ) (students : List Student)
    (tutors : List Tutor) (X : List (Fin 11 → ℚ)) (y : List ℚ)
    (inters : List Interaction) :
    (hybridFit expf sqrtf alpha students tutors X y inters).isOk = true ↔
      ((y.length = X.length ∨ y.length = 1) ∧
        ∀ inter ∈ inters,
          inter.student_id ∈ students.map (fun s => s.student_id) ∧
          inter.tutor_id ∈ tutors.map (fun t => t.tutor_id)) := by
  rw [hybridFit_isOk]
  have hs : ∀ q, (sidToIdxOf students q).isSome ↔
      q ∈ students.map (fun s => s.student_id) := by
    intro q
    simp only [sidToIdxOf, buildDict]
    exact buildDictAux_isSome _ 0 q
  have ht : ∀ q, (tidToIdxOf tutors q).isSome ↔
      q ∈ tutors.map (fun t => t.tutor_id) := by
    intro q
    simp only [tidToIdxOf, buildDict]
    exact buildDictAux_isSome _ 0 q
  simp only [hs, ht]

/-! ## Concrete fixtures shared by witnesses and counterexamples -/

/-- Stand-in for `np.exp` in concrete runs; the facts below do not depend on
the exponential's values. -/
def cExp : ℚ → ℚ := fun _ => 1

/-- Stand-in for the square root inside `np.linalg.norm` in concrete runs. -/
def cSqrt : ℚ → ℚ := fun _ => 0

/-- A zero tie-break noise draw. -/
def cNoise : Nat → ℚ := fun _ => 0

/-- An all-zero feature row. -/
def zeroRow : Fin 11 → ℚ := fun _ => 0

lemma cPredict_half (w : Fin 11 → ℚ) (x : Fin 11 → ℚ) (hw : w = zeroRow) :
    predictProbaRow cExp w 0 x = 1 / 2 := by
  subst hw
  rw [predictProbaRow]
  have h : (∑ j, x j * zeroRow j) + 0 = (0 : ℚ) := by simp [zeroRow]
  rw [h, sigmoid]
  simp only [cExp]
  norm_num

lemma cStep_fixed1 :
    lrStep cExp (1/10) (1/100) [zeroRow] (yBroadcast [zeroRow] [1/2]) (zeroRow, 0) =
      (zeroRow, 0) := by
  rw [lrStep]
  simp only [Prod.mk.injEq]
  constructor
  · funext j
    simp [cPredict_half, yBroadcast, zeroRow, Finset.sum_range_succ]
  · simp [cPredict_half, yBroadcast, Finset.sum_range_succ]

lemma cStep_fixed2 :
    lrStep cExp (1/10) (1/100) [zeroRow, zeroRow]
      (yBroadcast [zeroRow, zeroRow] [1/2]) (zeroRow, 0) = (zeroRow, 0) := by
  rw [lrStep]
  simp only [Prod.mk.injEq]
  constructor
  · funext j
    simp [cPredict_half, yBroadcast, zeroRow, Finset.sum_range_succ]
  · simp [cPredict_half, yBroadcast, Finset.sum_range_succ]

lemma cLrFit1 : lrFit cExp (1/10) (1/100) 2000 [zeroRow] [1/2] = .ok (zeroRow, 0) := by
  have hc : ([(1:ℚ)/2].length = ([zeroRow] : List (Fin 11 → ℚ)).length ∨
      [(1:ℚ)/2].length = 1) := by simp
  rw [lrFit, if_pos hc]
  exact congrArg Except.ok (Function.iterate_fixed cStep_fixed1 2000)

lemma cLrFit2 :
    lrFit cExp (1/10) (1/100) 2000 [zeroRow, zeroRow] [1/2] = .ok (zeroRow, 0) := by
  have hc : ([(1:ℚ)/2].length = ([zeroRow, zeroRow] : List (Fin 11 → ℚ)).length ∨
      [(1:ℚ)/2].length = 1) := by simp
  rw [lrFit, if_pos hc]
  exact congrArg Except.ok (Function.iterate_fixed cStep_fixed2 2000)

/-- C2 counterexample: `fit` completes without raising on a feature matrix
with 2 rows and a label vector of length 1 — a shape mismatch that numpy
broadcasting silently accepts, contradicting the claim that every such
mismatch raises. -/
theorem fit_shape_mismatch_cx :
    (hybridFit cExp cSqrt (7/10) [] [] [zeroRow, zeroRow] [1/2] []).isOk = true ∧
    ([(1 : ℚ)/2] : List ℚ).length ≠ ([zeroRow, zeroRow] : List (Fin 11 → ℚ)).length := by
  constructor
  · rw [hybridFit]
    rw [cLrFit2, except_bind_ok]
    rfl
  · simp

/-! ## Properties of the ranking pipeline -/

lemma dictGet_some {α : Type} (a : α) : dictGet (some a) = Except.ok a := rfl

lemma dictGet_none {α : Type} : (dictGet (none : Option α)) = Except.error "KeyError" := rfl

lemma except_pure_bind {α β : Type} (a : α) (f : α → Except String β) :
    ((pure a : Except String α) >>= f) = f a := rfl

lemma mapM_pairs_ok {g : Nat → Option String} {c : Nat → WithBot ℚ} :
    ∀ (l : List Nat) (out : List (String × WithBot ℚ)),
      l.mapM (fun i => do
        let tid ← dictGet (g i)
        pure ((tid, c i) : String × WithBot ℚ)) = Except.ok out →
      out = l.map (fun i => ((g i).getD "", c i)) := by
  intro l
  induction l with
  | nil =>
    intro out h
    obtain rfl : ([] : List (String × WithBot ℚ)) = out := Except.ok.inj h
    simp
  | cons i l ih =>
    intro out h
    rw [List.mapM_cons] at h
    cases hg : g i with
    | none =>
      rw [hg, dictGet_none, except_bind_error, except_bind_error] at h
      exact absurd h (except_error_ne_ok _ _)
    | some tid =>
      rw [hg, dictGet_some, except_bind_ok, except_pure_bind] at h
      cases hrest : l.mapM (fun i => do
          let tid ← dictGet (g i)
          pure ((tid, c i) : String × WithBot ℚ)) with
      | error e =>
        rw [hrest, except_bind_error] at h
        exact absurd h (except_error_ne_ok _ _)
      | ok bs =>
        rw [hrest, except_bind_ok] at h
        obtain rfl : (tid, c i) :: bs = out := Except.ok.inj h
        rw [List.map_cons, ← ih bs hrest, hg]
        rfl

lemma mapM_pairs_intro {g : Nat → Option String} {c : Nat → WithBot ℚ} :
    ∀ (l : List Nat), (∀ i ∈ l, (g i).isSome) →
      l.mapM (fun i => do
        let tid ← dictGet (g i)
        pure ((tid, c i) : String × WithBot ℚ)) =
        Except.ok (l.map (fun i => ((g i).getD "", c i))) := by
  intro l
  induction l with
  | nil => intro _; rfl
  | cons i l ih =>
    intro h
    obtain ⟨tid, hg⟩ := Option.isSome_iff_exists.mp (h i (List.mem_cons_self i l))
    rw [List.mapM_cons, hg, dictGet_some, except_bind_ok, except_pure_bind]
    rw [ih (fun j hj => h j (List.mem_cons_of_mem _ hj)), except_bind_ok]
    simp only [List.map_cons, hg, Option.getD_some]
    rfl

lemma argsortDesc_perm (v : Nat → WithBot ℚ) (n : Nat) :
    (argsortDesc v n).Perm (List.range n) :=
  @List.perm_insertionSort Nat (fun i j => v j ≤ v i) (fun _ _ => inferInstance) (List.range n)

lemma argsortDesc_length (v : Nat → WithBot ℚ) (n : Nat) :
    (argsortDesc v n).length = n :=
  ((argsortDesc_perm v n).length_eq).trans (List.length_range n)

lemma argsortDesc_mem (v : Nat → WithBot ℚ) (n i : Nat) :
    i ∈ argsortDesc v n ↔ i < n := by
  rw [(argsortDesc_perm v n).mem_iff, List.mem_range]

lemma argsortDesc_sorted (v : Nat → WithBot ℚ) (n : Nat) :
    List.Sorted (fun i j => v j ≤ v i) (argsortDesc v n) := by
  haveI ht : IsTotal Nat (fun i j => v j ≤ v i) := ⟨fun a b => le_total (v b) (v a)⟩
  haveI htr : IsTrans Nat (fun i j => v j ≤ v i) :=
    ⟨fun a b c hab hbc => le_trans hbc hab⟩
  exact @List.sorted_insertionSort Nat (fun i j => v j ≤ v i)
    (fun _ _ => inferInstance) ht htr (List.range n)

/-- Every index in the first `k` positions of the descending argsort has a
finite (non-`-inf`) score, provided at least `k` indices have finite
scores: the `-inf`-masked entries always sort after every finite entry. -/
lemma take_argsortDesc_ne_bot (v : Nat → WithBot ℚ) (n k : Nat)
    (hk : k ≤ (List.range n).countP (fun t => v t ≠ ⊥)) :
    ∀ i ∈ (argsortDesc v n).take k, v i ≠ ⊥ := by
  intro i hi hbot
  obtain ⟨p, hp, hpi⟩ := List.mem_iff_getElem.mp hi
  have hpk : p < k := lt_of_lt_of_le hp (by rw [List.length_take]; exact min_le_left _ _)
  have hpl : p < (argsortDesc v n).length := by
    rw [List.length_take] at hp
    exact lt_of_lt_of_le hp (min_le_right _ _)
  rw [List.getElem_take] at hpi
  have hdrop : ∀ x ∈ (argsortDesc v n).drop p, v x = ⊥ := by
    intro x hx
    obtain ⟨q, hq, hqx⟩ := List.mem_iff_getElem.mp hx
    rw [List.getElem_drop] at hqx
    rcases Nat.eq_zero_or_pos q with rfl | hqpos
    · have hzero : (argsortDesc v n)[p + 0] = i := by simpa using hpi
      have hxi : x = i := hqx.symm.trans hzero
      rw [hxi]
      exact hbot
    · have hplen : p + q < (argsortDesc v n).length := by
        rw [List.length_drop] at hq
        omega
      have hlt : p < p + q := by omega
      have hs := argsortDesc_sorted v n
      have hle := List.pairwise_iff_get.mp hs ⟨p, hpl⟩ ⟨p + q, hplen⟩
        (Fin.mk_lt_mk.mpr hlt)
      rw [List.get_eq_getElem, List.get_eq_getElem] at hle
      rw [hqx, hpi, hbot] at hle
      exact le_bot_iff.mp hle
  have hsplit : (argsortDesc v n).countP (fun t => v t ≠ ⊥) =
      ((argsortDesc v n).take p).countP (fun t => v t ≠ ⊥) +
      ((argsortDesc v n).drop p).countP (fun t => v t ≠ ⊥) := by
    rw [← List.countP_append, List.take_append_drop]
  have hdrop0 : ((argsortDesc v n).drop p).countP (fun t => v t ≠ ⊥) = 0 := by
    rw [List.countP_eq_zero]
    intro x hx
    simp [hdrop x hx]
  have htake : ((argsortDesc v n).take p).countP (fun t => v t ≠ ⊥) ≤ p := by
    calc ((argsortDesc v n).take p).countP (fun t => v t ≠ ⊥)
        ≤ ((argsortDesc v n).take p).length := List.countP_le_length _
    _ ≤ p := by rw [List.length_take]; exact min_le_left _ _
  have hperm : (argsortDesc v n).countP (fun t => v t ≠ ⊥) =
      (List.range n).countP (fun t => v t ≠ ⊥) :=
    (argsortDesc_perm v n).countP_eq _
  omega

lemma normalize_agg_some (v : List ℚ) (hv : v ≠ []) :
    ∃ w, normalize_agg v = some w ∧ w.length = v.length := by
  cases v with
  | nil => exact absurd rfl hv
  | cons x xs =>
    rw [normalize_agg]
    simp only [npMax, npMin, Option.bind_eq_bind, Option.some_bind]
    split
    · exact ⟨_, rfl, by simp⟩
    · exact ⟨_, rfl, by simp⟩

lemma optElim_none {α : Type} (e : String) :
    (none : Option α).elim (Except.error e) Except.ok = Except.error e := rfl

lemma optElim_some {α : Type} (e : String) (a : α) :
    (some a).elim (Except.error e : Except String α) Except.ok = Except.ok a := rfl

lemma recommend_ok_elim {expf : ℚ → ℚ} {noise : Nat → ℚ} {m : HybridModel}
    {student_id : String} {top_n : Nat} {out : List (String × WithBot ℚ)}
    (hrec : recommend expf noise m student_id top_n = .ok out) :
    ∃ sidx cfs lr_n cf_n,
      m.sid_to_idx student_id = some sidx ∧
      scores_for_student m.cf student_id = some cfs ∧
      normalize_agg (lr_scores_for_student expf m sidx) = some lr_n ∧
      normalize_agg cfs = some cf_n ∧
      out = ((argsortDesc (combinedScores m noise sidx lr_n cf_n) m.cf.nT).take top_n).map
        (fun i => ((m.idx_to_tid i).getD "", combinedScores m noise sidx lr_n cf_n i)) := by
  rw [recommend] at hrec
  cases h1 : m.sid_to_idx student_id with
  | none =>
    simp only [h1, dictGet_none, except_bind_error] at hrec
    exact absurd hrec (except_error_ne_ok _ _)
  | some sidx =>
    simp only [h1, dictGet_some, except_bind_ok] at hrec
    cases h2 : scores_for_student m.cf student_id with
    | none =>
      simp only [h2, dictGet_none, except_bind_error] at hrec
      exact absurd hrec (except_error_ne_ok _ _)
    | some cfs =>
      simp only [h2, dictGet_some, except_bind_ok] at hrec
      cases h3 : normalize_agg (lr_scores_for_student expf m sidx) with
      | none =>
        simp only [h3, optElim_none, except_bind_error] at hrec
        exact absurd hrec (except_error_ne_ok _ _)
      | some lr_n =>
        simp only [h3, optElim_some, except_bind_ok] at hrec
        cases h4 : normalize_agg cfs with
        | none =>
          simp only [h4, optElim_none, except_bind_error] at hrec
          exact absurd hrec (except_error_ne_ok _ _)
        | some cf_n =>
          simp only [h4, optElim_some, except_bind_ok] at hrec
          exact ⟨sidx, cfs, lr_n, cf_n, rfl, rfl, h3, h4,
            (mapM_pairs_ok _ out hrec)⟩

lemma recommend_ok_intro {expf : ℚ → ℚ} {noise : Nat → ℚ} {m : HybridModel}
    {student_id : String} {top_n : Nat} {sidx : Nat} {cfs lr_n cf_n : List ℚ}
    (h1 : m.sid_to_idx student_id = some sidx)
    (h2 : scores_for_student m.cf student_id = some cfs)
    (h3 : normalize_agg (lr_scores_for_student expf m sidx) = some lr_n)
    (h4 : normalize_agg cfs = some cf_n)
    (hids : ∀ i ∈ (argsortDesc (combinedScores m noise sidx lr_n cf_n) m.cf.nT).take top_n,
      (m.idx_to_tid i).isSome) :
    recommend expf noise m student_id top_n =
      .ok (((argsortDesc (combinedScores m noise sidx lr_n cf_n) m.cf.nT).take top_n).map
        (fun i => ((m.idx_to_tid i).getD "", combinedScores m noise sidx lr_n cf_n i))) := by
  rw [recommend]
  simp only [h1, dictGet_some, except_bind_ok, h2, h3, h4, optElim_some]
  exact mapM_pairs_intro _ hids

/-- For a model produced by `fit` on at least one tutor, `recommend` on a
known student id succeeds and returns `min top_n (number of tutors)`
pairs. -/
lemma recommend_ok_of_known {expf sqrtf : ℚ → ℚ} {noise : Nat → ℚ} {alpha : ℚ}
    {students : List Student} {tutors : List Tutor} {X : List (Fin 11 → ℚ)}
    {y : List ℚ} {inters : List Interaction} {m : HybridModel}
    (hfit : hybridFit expf sqrtf alpha students tutors X y inters = .ok m)
    (htut : tutors ≠ []) {student_id : String} {sidx : Nat}
    (hsid : m.sid_to_idx student_id = some sidx) (top_n : Nat) :
    ∃ out, recommend expf noise m student_id top_n = .ok out ∧
      out.length = min top_n m.tutors.length := by
  obtain ⟨hst, htu, hsm, htm, him, hcs, hct, hnT, hal, hbin⟩ := hybridFit_ok_elim hfit
  have htpos : 0 < tutors.length := List.length_pos.mpr htut
  have hcfsid : m.cf.sid_to_idx student_id = some sidx := by
    rw [hcs, ← hsm]
    exact hsid
  have h2 : scores_for_student m.cf student_id = some ((List.range m.cf.nT).map (fun t =>
      if 0 < m.cf.interaction_matrix sidx t then 0
      else ∑ j ∈ Finset.range m.cf.nT,
        m.cf.interaction_matrix sidx j * m.cf.similarity_matrix j t)) := by
    rw [scores_for_student, hcfsid, Option.map_some']
  have hlr_len : (lr_scores_for_student expf m sidx).length = tutors.length := by
    rw [lr_scores_for_student]
    simp [htu]
  have hlr_ne : lr_scores_for_student expf m sidx ≠ [] :=
    List.ne_nil_of_length_pos (by rw [hlr_len]; exact htpos)
  have hcfs_ne : ((List.range m.cf.nT).map (fun t =>
      if 0 < m.cf.interaction_matrix sidx t then (0 : ℚ)
      else ∑ j ∈ Finset.range m.cf.nT,
        m.cf.interaction_matrix sidx j * m.cf.similarity_matrix j t)) ≠ [] :=
    List.ne_nil_of_length_pos
      (by rw [List.length_map, List.length_range, hnT]; exact htpos)
  obtain ⟨lr_n, h3, _⟩ := normalize_agg_some _ hlr_ne
  obtain ⟨cf_n, h4, _⟩ := normalize_agg_some _ hcfs_ne
  have hids : ∀ i ∈ (argsortDesc (combinedScores m noise sidx lr_n cf_n) m.cf.nT).take top_n,
      (m.idx_to_tid i).isSome := by
    intro i hi
    have hmem : i ∈ argsortDesc (combinedScores m noise sidx lr_n cf_n) m.cf.nT :=
      List.Sublist.mem hi (List.take_sublist _ _)
    have hin : i < tutors.length := by
      rw [← hnT]
      exact (argsortDesc_mem _ _ i).mp hmem
    rw [him, idxToTidOf, List.get?_eq_get hin]
    simp
  refine ⟨_, recommend_ok_intro hsid h2 h3 h4 hids, ?_⟩
  rw [List.length_map, List.length_take, argsortDesc_length, hnT, htu]

/-! ## Claim C1: seen-item masking in `recommend` -/

/-- C1 (amended): for a fitted model with duplicate-free tutor ids, the list
returned by `recommend(student_id, top_n)` contains no tutor id whose entry
in the student's row of the training interaction matrix is positive,
provided `top_n` does not exceed the number of tutors the student has not
interacted with.  (When `top_n` exceeds that number, the `-inf`-masked
already-interacted tutors fill the remaining slots, so the property does not
hold for arbitrary `top_n`.) -/
theorem recommend_excludes_seen (expf sqrtf : ℚ → ℚ) (noise : Nat → ℚ) (alpha : ℚ)
    (students : List Student) (tutors : List Tutor) (X : List (Fin 11 → ℚ))
    (y : List ℚ) (inters : List Interaction) (m : HybridModel)
    (hfit : hybridFit expf sqrtf alpha students tutors X y inters = .ok m)
    (hnodup : (tutors.map (fun t => t.tutor_id)).Nodup)
    (student_id : String) (sidx : Nat) (hsid : m.sid_to_idx student_id = some sidx)
    (top_n : Nat)
    (htop : top_n ≤ ((List.range m.cf.nT).filter
      (fun t => !decide (0 < m.cf.interaction_matrix sidx t))).length)
    (out : List (String × WithBot ℚ))
    (hrec : recommend expf noise m student_id top_n = .ok out) :
    ∀ p ∈ out, ∀ j, m.tid_to_idx p.1 = some j →
      ¬ 0 < m.cf.interaction_matrix sidx j := by
  obtain ⟨sidx', cfs, lr_n, cf_n, h1, h2, h3, h4, hout⟩ := recommend_ok_elim hrec
  have hss : sidx = sidx' := by
    rw [hsid] at h1
    exact Option.some.inj h1
  obtain rfl := hss
  obtain ⟨hst, htu, hsm, htm, him, hcs, hct, hnT, hal, hbin⟩ := hybridFit_ok_elim hfit
  have hcount : top_n ≤ (List.range m.cf.nT).countP
      (fun t => decide (combinedScores m noise sidx lr_n cf_n t ≠ ⊥)) := by
    have hconv : ((List.range m.cf.nT).filter
        (fun t => !decide (0 < m.cf.interaction_matrix sidx t))).length =
        (List.range m.cf.nT).countP
          (fun t => decide (combinedScores m noise sidx lr_n cf_n t ≠ ⊥)) := by
      rw [← List.countP_eq_length_filter]
      apply List.countP_congr
      intro t _
      by_cases hpos : 0 < m.cf.interaction_matrix sidx t
      · have hbot : combinedScores m noise sidx lr_n cf_n t = ⊥ := by
          rw [combinedScores]
          exact if_pos hpos
        simp [hbot, hpos]
      · have hcoe : combinedScores m noise sidx lr_n cf_n t =
            ((m.alpha * lr_n.getD t 0 + (1 - m.alpha) * cf_n.getD t 0 +
              noise t : ℚ) : WithBot ℚ) := by
          rw [combinedScores]
          exact if_neg hpos
        rw [hcoe]
        have hlhs : (!decide (0 < m.cf.interaction_matrix sidx t)) = true := by
          simp [hpos]
        rw [hlhs]
        constructor
        · intro _
          exact decide_eq_true (@WithBot.coe_ne_bot ℚ
            (m.alpha * lr_n.getD t 0 + (1 - m.alpha) * cf_n.getD t 0 + noise t))
        · intro _
          rfl
    rw [← hconv]
    exact htop
  intro p hp j hj
  rw [hout] at hp
  obtain ⟨i, hitake, hpi⟩ := List.mem_map.mp hp
  have hne : combinedScores m noise sidx lr_n cf_n i ≠ ⊥ :=
    take_argsortDesc_ne_bot _ m.cf.nT top_n hcount i hitake
  have hunseen : ¬ 0 < m.cf.interaction_matrix sidx i := by
    intro hposi
    refine hne ?_
    rw [combinedScores]
    exact if_pos hposi
  have hmem : i ∈ argsortDesc (combinedScores m noise sidx lr_n cf_n) m.cf.nT :=
    List.Sublist.mem hitake (List.take_sublist _ _)
  have hi_t : i < tutors.length := by
    rw [← hnT]
    exact (argsortDesc_mem _ _ i).mp hmem
  have hidx : m.idx_to_tid i = some ((tutors.get ⟨i, hi_t⟩).tutor_id) := by
    rw [him, idxToTidOf, List.get?_eq_get hi_t, Option.map_some']
  have hp1 : p.1 = (tutors.get ⟨i, hi_t⟩).tutor_id := by
    rw [← hpi]
    simp [hidx]
  have hkeys : (tutors.map (fun t => t.tutor_id)).get? i =
      some ((tutors.get ⟨i, hi_t⟩).tutor_id) := by
    rw [List.get?_map, List.get?_eq_get hi_t, Option.map_some']
  have htidx : m.tid_to_idx p.1 = some i := by
    rw [htm, tidToIdxOf, buildDict, hp1]
    have := buildDictAux_of_get _ 0 i _ hnodup hkeys
    simpa using this
  have hji : j = i := by
    rw [htidx] at hj
    exact (Option.some.inj hj).symm
  rw [hji]
  exact hunseen

/-! ## Claim C10: result length of `recommend` -/

/-- C10 (amended): for every fitted model with at least one tutor and every
known student id, `recommend(student_id, top_n)` returns exactly
`min top_n (number of tutors)` pairs, regardless of how many tutors the
student has already interacted with.  (With zero tutors the call raises on
an empty-array reduction instead of returning an empty list, so the
tutor-count hypothesis is needed.) -/
theorem recommend_length (expf sqrtf : ℚ → ℚ) (noise : Nat → ℚ) (alpha : ℚ)
    (students : List Student) (tutors : List Tutor) (X : List (Fin 11 → ℚ))
    (y : List ℚ) (inters : List Interaction) (m : HybridModel)
    (hfit : hybridFit expf sqrtf alpha students tutors X y inters = .ok m)
    (htut : tutors ≠ []) (student_id : String) (sidx : Nat)
    (hsid : m.sid_to_idx student_id = some sidx) (top_n : Nat) :
    ∃ out, recommend expf noise m student_id top_n = .ok out ∧
      out.length = min top_n m.tutors.length :=
  recommend_ok_of_known hfit htut hsid top_n

/-! ## Claim C7: not-found conditions -/

/-- C7 (amended): for every fitted model with at least one tutor,
`recommend` fails exactly on student ids unknown to the id map (the
`KeyError` not-found condition), and `get_student_profile` and
`get_tutor_profile` fail exactly on ids absent from their respective maps;
for known ids none of the three fails.  (With zero tutors `recommend`
raises on an empty-array reduction even for a known student id, so the
tutor-count hypothesis is needed.) -/
theorem not_found_iff (expf sqrtf : ℚ → ℚ) (noise : Nat → ℚ) (alpha : ℚ)
    (students : List Student) (tutors : List Tutor) (X : List (Fin 11 → ℚ))
    (y : List ℚ) (inters : List Interaction) (m : HybridModel)
    (hfit : hybridFit expf sqrtf alpha students tutors X y inters = .ok m)
    (htut : tutors ≠ []) (student_id tutor_id : String) (top_n : Nat) :
    ((recommend expf noise m student_id top_n).isOk ↔
      (m.sid_to_idx student_id).isSome) ∧
    ((get_student_profile m student_id).isOk ↔ (m.sid_to_idx student_id).isSome) ∧
    ((get_tutor_profile m tutor_id).isOk ↔ (m.tid_to_idx tutor_id).isSome) := by
  obtain ⟨hst, htu, hsm, htm, him, hcs, hct, hnT, hal, hbin⟩ := hybridFit_ok_elim hfit
  refine ⟨⟨?_, ?_⟩, ⟨?_, ?_⟩, ⟨?_, ?_⟩⟩
  · intro hok
    cases hr : recommend expf noise m student_id top_n with
    | error e => rw [hr] at hok; simp [except_isOk_error] at hok
    | ok out =>
      obtain ⟨sidx, _, _, _, h1, _, _, _, _⟩ := recommend_ok_elim hr
      simp [h1]
  · intro hsome
    obtain ⟨sidx, hsid⟩ := Option.isSome_iff_exists.mp hsome
    obtain ⟨out, hout, _⟩ := recommend_ok_of_known hfit htut hsid top_n
    rw [hout]
    rfl
  · intro hok
    rw [get_student_profile] at hok
    cases h1 : m.sid_to_idx student_id with
    | none => rw [h1, dictGet_none, except_bind_error] at hok; simp [except_isOk_error] at hok
    | some sidx => rfl
  · intro hsome
    obtain ⟨sidx, hsid⟩ := Option.isSome_iff_exists.mp hsome
    rw [get_student_profile]
    simp only [hsid, dictGet_some, except_bind_ok]
    have hlt : sidx < students.length := by
      rw [hsm, sidToIdxOf, buildDict] at hsid
      have := (buildDictAux_lt _ 0 sidx _ hsid).2.1
      simpa using this
    have hlt' : sidx < m.students.length := by rw [hst]; exact hlt
    rw [List.get?_eq_get hlt', dictGet_some]
    rfl
  · intro hok
    rw [get_tutor_profile] at hok
    cases h1 : m.tid_to_idx tutor_id with
    | none => rw [h1, dictGet_none, except_bind_error] at hok; simp [except_isOk_error] at hok
    | some tidx => rfl
  · intro hsome
    obtain ⟨tidx, htid⟩ := Option.isSome_iff_exists.mp hsome
    rw [get_tutor_profile]
    simp only [htid, dictGet_some, except_bind_ok]
    have hlt : tidx < tutors.length := by
      rw [htm, tidToIdxOf, buildDict] at htid
      have := (buildDictAux_lt _ 0 tidx _ htid).2.1
      simpa using this
    have hlt' : tidx < m.tutors.length := by rw [htu]; exact hlt
    rw [List.get?_eq_get hlt', dictGet_some]
    rfl

/-! ## Claim C8: negative sampling -/

lemma firstOccKeys_go_nodup (xs : List Nat) :
    ∀ acc : List Nat, acc.Nodup →
      (xs.foldl (fun acc x => if x ∈ acc then acc else acc ++ [x]) acc).Nodup := by
  induction xs with
  | nil => intro acc h; simpa using h
  | cons x xs ih =>
    intro acc h
    rw [List.foldl_cons]
    by_cases hx : x ∈ acc
    · rw [if_pos hx]
      exact ih acc h
    · rw [if_neg hx]
      refine ih _ ?_
      rw [List.nodup_append]
      exact ⟨h, List.nodup_singleton x, by simpa using hx⟩

lemma firstOccKeys_nodup (xs : List Nat) : (firstOccKeys xs).Nodup :=
  firstOccKeys_go_nodup xs [] List.nodup_nil

/-- The helper that evaluates a key-filtered flatMap: each inner list carries
its own key in the first component, so filtering by key keeps exactly one
block. -/
lemma filter_flatMap_key (f : Nat → List (Nat × Nat))
    (hf : ∀ s' p, p ∈ f s' → p.1 = s') :
    ∀ keys : List Nat, keys.Nodup → ∀ s : Nat,
      (keys.flatMap f).filter (fun p => p.1 = s) = if s ∈ keys then f s else [] := by
  intro keys
  induction keys with
  | nil => intro _ s; simp
  | cons k ks ih =>
    intro hnd s
    rw [List.nodup_cons] at hnd
    rw [List.flatMap_cons, List.filter_append, ih hnd.2 s]
    by_cases hks : s = k
    · subst hks
      have h1 : (f s).filter (fun p => p.1 = s) = f s := by
        rw [List.filter_eq_self]
        intro p hp
        simp [hf s p hp]
      have h2 : s ∉ ks := hnd.1
      simp [h1, h2]
    · have h1 : (f k).filter (fun p => p.1 = s) = [] := by
        rw [List.filter_eq_nil_iff]
        intro p hp
        simp [hf k p hp, Ne.symm hks, hks]
      have hmem : (s ∈ k :: ks) ↔ (s ∈ ks) := by
        simp [hks]
      rw [h1]
      simp only [List.nil_append]
      by_cases hin : s ∈ ks
      · simp [hin, hmem, hks]
      · simp [hin, hmem, hks]

/-- C8: for every student, the tutor indices sampled as negatives by
`sample_lr_dataset`'s negative-sampling loop never include a member of that
student's positive (interacted) set, and they are pairwise distinct (drawn
without replacement), assuming only the contract of
`RNG.choice(available, size, replace=False)`: a duplicate-free selection
from `available`. -/
theorem negative_sampling_spec (pick : List Nat → Nat → List Nat) (nT : Nat)
    (neg_ratio : ℚ) (pos : List (Nat × Nat))
    (hpick : ∀ avail k, avail.Nodup → k ≤ avail.length →
      (pick avail k).Nodup ∧ ∀ x ∈ pick avail k, x ∈ avail) :
    ∀ s : Nat,
      (∀ t ∈ ((sampleNegativePairs pick nT neg_ratio pos).filter
        (fun p => p.1 = s)).map (fun p => p.2), t ∉ interactedSet pos s) ∧
      (((sampleNegativePairs pick nT neg_ratio pos).filter
        (fun p => p.1 = s)).map (fun p => p.2)).Nodup := by
  intro s
  have hf : ∀ s' p, p ∈ (fun s' =>
      let pos_count := (interactedSet pos s').length
      let num_negs := (max 1 (neg_ratio * (pos_count : ℚ))).floor.toNat
      let available := (List.range nT).filter (fun t => t ∉ interactedSet pos s')
      if available = [] then []
      else (pick available (min available.length num_negs)).map (fun t => (s', t))) s' →
      p.1 = s' := by
    intro s' p hp
    simp only at hp
    split at hp
    · cases hp
    · obtain ⟨t, _, rfl⟩ := List.mem_map.mp hp
      rfl
  have hkey := filter_flatMap_key _ hf (firstOccKeys (pos.map (fun p => p.1)))
    (firstOccKeys_nodup _) s
  rw [sampleNegativePairs, hkey]
  by_cases hs : s ∈ firstOccKeys (pos.map (fun p => p.1))
  · rw [if_pos hs]
    simp only
    set available := (List.range nT).filter (fun t => t ∉ interactedSet pos s) with havail
    by_cases hav : available = []
    · rw [if_pos hav]
      simp
    · rw [if_neg hav]
      have hnd : available.Nodup := List.Nodup.filter _ (List.nodup_range nT)
      have hle : min available.length
          (max 1 (neg_ratio * ((interactedSet pos s).length : ℚ))).floor.toNat ≤
          available.length := min_le_left _ _
      obtain ⟨hpnd, hpsub⟩ := hpick available _ hnd hle
      constructor
      · intro t ht
        rw [List.map_map] at ht
        simp only [List.mem_map] at ht
        obtain ⟨u, hu, rfl⟩ := ht
        have := hpsub u hu
        rw [havail, List.mem_filter] at this
        simpa using this.2
      · rw [List.map_map]
        have hcomp : ((fun p => p.2) ∘ (fun t => ((s, t) : Nat × Nat))) = id := rfl
        rw [hcomp, List.map_id]
        exact hpnd
  · rw [if_neg hs]
    simp

/-! ## Concrete runs -/

def cStudent : Student :=
  { student_id := "s0", preferred_subject := "math", preferred_level := "high"
    location := "NYC", availability := 1, learning_style := "visual"
    max_budget := 50, profile_text := "" }

def cTutor0 : Tutor :=
  { tutor_id := "t0", subject_specialization := "math", teaching_level := "high"
    tutor_location := "NYC", available_slots := 1, teaching_style := "visual"
    hourly_rate := 25, profile_text := "" }

def cTutor1 : Tutor :=
  { tutor_id := "t1", subject_specialization := "english", teaching_level := "middle"
    tutor_location := "LA", available_slots := 2, teaching_style := "auditory"
    hourly_rate := 35, profile_text := "" }

def cInter : Interaction :=
  { student_id := "s0", tutor_id := "t0", interaction_type := "book" }

/-- The interaction matrix of the runs below: student 0 interacted with
tutor 0 only. -/
def cIMW : Nat → Nat → ℚ := fun a b => if a = 0 then if b = 0 then 1 else 0 else 0

/-- The zero interaction matrix. -/
def cIM0 : Nat → Nat → ℚ := fun _ _ => 0

/-- The model `fit` produces on one student and two tutors, with the single
training interaction (s0, t0). -/
def cMW : HybridModel :=
  { lr_weights := zeroRow
    lr_bias := 0
    cf := { similarity_matrix := compute_tutor_similarities cSqrt cIMW 1
            sid_to_idx := sidToIdxOf [cStudent]
            tid_to_idx := tidToIdxOf [cTutor0, cTutor1]
            interaction_matrix := cIMW
            nT := 2 }
    alpha := 7/10
    students := [cStudent]
    tutors := [cTutor0, cTutor1]
    sid_to_idx := sidToIdxOf [cStudent]
    tid_to_idx := tidToIdxOf [cTutor0, cTutor1]
    idx_to_tid := idxToTidOf [cTutor0, cTutor1] }

/-- The model `fit` produces on one student and a single, already-interacted
tutor. -/
def cM1 : HybridModel :=
  { lr_weights := zeroRow
    lr_bias := 0
    cf := { similarity_matrix := compute_tutor_similarities cSqrt cIMW 1
            sid_to_idx := sidToIdxOf [cStudent]
            tid_to_idx := tidToIdxOf [cTutor0]
            interaction_matrix := cIMW
            nT := 1 }
    alpha := 7/10
    students := [cStudent]
    tutors := [cTutor0]
    sid_to_idx := sidToIdxOf [cStudent]
    tid_to_idx := tidToIdxOf [cTutor0]
    idx_to_tid := idxToTidOf [cTutor0] }

/-- The model `fit` produces on one student and zero tutors. -/
def cM0 : HybridModel :=
  { lr_weights := zeroRow
    lr_bias := 0
    cf := { similarity_matrix := compute_tutor_similarities cSqrt cIM0 1
            sid_to_idx := sidToIdxOf [cStudent]
            tid_to_idx := tidToIdxOf []
            interaction_matrix := cIM0
            nT := 0 }
    alpha := 7/10
    students := [cStudent]
    tutors := []
    sid_to_idx := sidToIdxOf [cStudent]
    tid_to_idx := tidToIdxOf []
    idx_to_tid := idxToTidOf [] }

lemma cFitW_eq : hybridFit cExp cSqrt (7/10) [cStudent] [cTutor0, cTutor1]
    [zeroRow] [1/2] [cInter] = .ok cMW := by
  rw [hybridFit, cLrFit1, except_bind_ok]
  rfl

lemma cFit1_eq : hybridFit cExp cSqrt (7/10) [cStudent] [cTutor0]
    [zeroRow] [1/2] [cInter] = .ok cM1 := by
  rw [hybridFit, cLrFit1, except_bind_ok]
  rfl

lemma cFit0_eq : hybridFit cExp cSqrt (7/10) [cStudent] []
    [zeroRow] [1/2] [] = .ok cM0 := by
  rw [hybridFit, cLrFit1, except_bind_ok]
  rfl

lemma cPredict_cMW (x : Fin 11 → ℚ) :
    predictProbaRow cExp cMW.lr_weights cMW.lr_bias x = 1/2 :=
  cPredict_half cMW.lr_weights x rfl

lemma cPredict_cM1 (x : Fin 11 → ℚ) :
    predictProbaRow cExp cM1.lr_weights cM1.lr_bias x = 1/2 :=
  cPredict_half cM1.lr_weights x rfl

lemma clr_scoresW : lr_scores_for_student cExp cMW 0 = [1/2, 1/2] := by
  have hlen : cMW.tutors.length = 2 := rfl
  rw [lr_scores_for_student, hlen]
  rw [show List.range 2 = [0, 1] from rfl]
  rw [List.map_cons, List.map_cons, List.map_nil]
  rw [cPredict_cMW, cPredict_cMW]

lemma clr_scores1 : lr_scores_for_student cExp cM1 0 = [1/2] := by
  have hlen : cM1.tutors.length = 1 := rfl
  rw [lr_scores_for_student, hlen]
  rw [show List.range 1 = [0] from rfl]
  rw [List.map_cons, List.map_nil]
  rw [cPredict_cM1]

lemma cnorm_half2 : normalize_agg [(1:ℚ)/2, 1/2] = some [1/10, 1/10] := by
  have hmax : npMax [(1:ℚ)/2, 1/2] = some (1/2) := by simp [npMax]
  have hmin : npMin [(1:ℚ)/2, 1/2] = some (1/2) := by simp [npMin]
  rw [normalize_agg, hmax, hmin]
  simp only [Option.bind_eq_bind, Option.some_bind]
  rw [if_pos (by norm_num)]
  rfl

lemma cnorm_zeros2 : normalize_agg [(0:ℚ), 0] = some [1/10, 1/10] := by
  have hmax : npMax [(0:ℚ), 0] = some 0 := by simp [npMax]
  have hmin : npMin [(0:ℚ), 0] = some 0 := by simp [npMin]
  rw [normalize_agg, hmax, hmin]
  simp only [Option.bind_eq_bind, Option.some_bind]
  rw [if_pos (by norm_num)]
  rfl

lemma cnorm_half1 : normalize_agg [(1:ℚ)/2] = some [1/10] := by
  rw [normalize_agg]
  rw [show npMax [(1:ℚ)/2] = some (1/2) from rfl]
  rw [show npMin [(1:ℚ)/2] = some (1/2) from rfl]
  simp only [Option.bind_eq_bind, Option.some_bind]
  rw [if_pos (by norm_num)]
  rfl

lemma cnorm_zero1 : normalize_agg [(0:ℚ)] = some [1/10] := by
  rw [normalize_agg]
  rw [show npMax [(0:ℚ)] = some 0 from rfl]
  rw [show npMin [(0:ℚ)] = some 0 from rfl]
  simp only [Option.bind_eq_bind, Option.some_bind]
  rw [if_pos (by norm_num)]
  rfl

lemma ccf_scoresW : scores_for_student cMW.cf "s0" = some [0, 0] := by
  rw [scores_for_student]
  rw [show cMW.cf.sid_to_idx "s0" = some 0 from rfl, Option.map_some']
  congr 1
  rw [show cMW.cf.nT = 2 from rfl]
  rw [show List.range 2 = [0, 1] from rfl]
  rw [List.map_cons, List.map_cons, List.map_nil]
  have h0 : (if 0 < cMW.cf.interaction_matrix 0 0 then (0:ℚ)
      else ∑ j ∈ Finset.range 2, cMW.cf.interaction_matrix 0 j *
        cMW.cf.similarity_matrix j 0) = 0 := by
    rw [if_pos (by norm_num [cMW, cIMW])]
  have h1 : (if 0 < cMW.cf.interaction_matrix 0 1 then (0:ℚ)
      else ∑ j ∈ Finset.range 2, cMW.cf.interaction_matrix 0 j *
        cMW.cf.similarity_matrix j 1) = 0 := by
    rw [if_neg (by norm_num [cMW, cIMW])]
    rw [Finset.sum_range_succ, Finset.sum_range_succ, Finset.sum_range_zero]
    norm_num [cMW, cIMW, compute_tutor_similarities, Finset.sum_range_succ,
      Finset.sum_range_zero, cSqrt]
  rw [h0, h1]

lemma ccf_scores1 : scores_for_student cM1.cf "s0" = some [0] := by
  rw [scores_for_student]
  rw [show cM1.cf.sid_to_idx "s0" = some 0 from rfl, Option.map_some']
  congr 1

lemma ccomb0W : combinedScores cMW cNoise 0 [1/10, 1/10] [1/10, 1/10] 0 = ⊥ := by
  rw [combinedScores]
  exact if_pos (by norm_num [cMW, cIMW])

lemma ccomb1W : combinedScores cMW cNoise 0 [1/10, 1/10] [1/10, 1/10] 1 =
    ((1/10 : ℚ) : WithBot ℚ) := by
  rw [combinedScores]
  rw [if_neg (by norm_num [cMW, cIMW])]
  exact congrArg (fun q : ℚ => (q : WithBot ℚ)) (by norm_num [cMW, cNoise, List.getD])

lemma csortW : argsortDesc (combinedScores cMW cNoise 0 [1/10, 1/10] [1/10, 1/10]) 2 =
    [1, 0] := by
  have hr01 : ¬ (combinedScores cMW cNoise 0 [1/10, 1/10] [1/10, 1/10] 1 ≤
      combinedScores cMW cNoise 0 [1/10, 1/10] [1/10, 1/10] 0) := by
    rw [ccomb0W, ccomb1W]
    simp
  rw [argsortDesc]
  rw [show List.range 2 = [0, 1] from rfl]
  simp only [List.insertionSort, List.orderedInsert]
  rw [if_neg hr01]

lemma ccomb01 : combinedScores cM1 cNoise 0 [1/10] [1/10] 0 = ⊥ := by
  rw [combinedScores]
  exact if_pos (by norm_num [cM1, cIMW])

lemma csort1 : argsortDesc (combinedScores cM1 cNoise 0 [1/10] [1/10]) 1 = [0] := by
  rw [argsortDesc]
  rw [show List.range 1 = [0] from rfl]
  simp [List.insertionSort, List.orderedInsert]

lemma cRecommendW : recommend cExp cNoise cMW "s0" 1 =
    .ok [("t1", ((1/10 : ℚ) : WithBot ℚ))] := by
  have h1 : cMW.sid_to_idx "s0" = some 0 := rfl
  have h3 : normalize_agg (lr_scores_for_student cExp cMW 0) = some [1/10, 1/10] := by
    rw [clr_scoresW]
    exact cnorm_half2
  rw [recommend]
  simp only [h1, dictGet_some, except_bind_ok, ccf_scoresW, h3, cnorm_zeros2, optElim_some]
  rw [show cMW.cf.nT = 2 from rfl, csortW]
  rw [show List.take 1 [1, 0] = [1] from rfl]
  rw [List.mapM_cons]
  rw [show cMW.idx_to_tid 1 = some "t1" from rfl, dictGet_some, except_bind_ok,
    except_pure_bind]
  rw [show ([] : List Nat).mapM (fun i => do
    let tid ← dictGet (cMW.idx_to_tid i)
    pure ((tid, combinedScores cMW cNoise 0 [1/10, 1/10] [1/10, 1/10] i) :
      String × WithBot ℚ)) = Except.ok [] from rfl]
  rw [except_bind_ok, ccomb1W]
  rfl

lemma cRecommend1 : recommend cExp cNoise cM1 "s0" 1 =
    .ok [("t0", (⊥ : WithBot ℚ))] := by
  have h1 : cM1.sid_to_idx "s0" = some 0 := rfl
  have h3 : normalize_agg (lr_scores_for_student cExp cM1 0) = some [1/10] := by
    rw [clr_scores1]
    exact cnorm_half1
  rw [recommend]
  simp only [h1, dictGet_some, except_bind_ok, ccf_scores1, h3, cnorm_zero1, optElim_some]
  rw [show cM1.cf.nT = 1 from rfl, csort1]
  rw [show List.take 1 [0] = [0] from rfl]
  rw [List.mapM_cons]
  rw [show cM1.idx_to_tid 0 = some "t0" from rfl, dictGet_some, except_bind_ok,
    except_pure_bind]
  rw [show ([] : List Nat).mapM (fun i => do
    let tid ← dictGet (cM1.idx_to_tid i)
    pure ((tid, combinedScores cM1 cNoise 0 [1/10] [1/10] i) :
      String × WithBot ℚ)) = Except.ok [] from rfl]
  rw [except_bind_ok, ccomb01]
  rfl

lemma cRecommend0_fails : (recommend cExp cNoise cM0 "s0" 5).isOk = false := by
  have h1 : cM0.sid_to_idx "s0" = some 0 := rfl
  have h2 : scores_for_student cM0.cf "s0" = some [] := rfl
  have h3 : normalize_agg (lr_scores_for_student cExp cM0 0) = none := rfl
  rw [recommend]
  simp only [h1, dictGet_some, except_bind_ok, h2, h3, optElim_none, except_bind_error]
  rfl

/-- C1 counterexample: on a fitted model with a single tutor the student has
already interacted with, `recommend("s0", 1)` returns that very tutor (with
score `-inf`), so the claim fails as soon as `top_n` exceeds the number of
tutors the student has not interacted with. -/
theorem recommend_excludes_seen_cx :
    hybridFit cExp cSqrt (7/10) [cStudent] [cTutor0] [zeroRow] [1/2] [cInter] =
      .ok cM1 ∧
    recommend cExp cNoise cM1 "s0" 1 = .ok [("t0", (⊥ : WithBot ℚ))] ∧
    0 < cM1.cf.interaction_matrix 0 0 ∧
    cM1.tid_to_idx "t0" = some 0 :=
  ⟨cFit1_eq, cRecommend1, by norm_num [cM1, cIMW], rfl⟩

theorem recommend_excludes_seen_witness :
    recommend cExp cNoise cMW "s0" 1 = .ok [("t1", ((1/10 : ℚ) : WithBot ℚ))] ∧
    ¬ 0 < cMW.cf.interaction_matrix 0 1 := by
  have htop : 1 ≤ ((List.range cMW.cf.nT).filter
      (fun t => !decide (0 < cMW.cf.interaction_matrix 0 t))).length := by
    rw [show cMW.cf.nT = 2 from rfl]
    rw [show List.range 2 = [0, 1] from rfl]
    have hd0 : (!decide (0 < cMW.cf.interaction_matrix 0 0)) = false := by
      norm_num [cMW, cIMW]
    have hd1 : (!decide (0 < cMW.cf.interaction_matrix 0 1)) = true := by
      norm_num [cMW, cIMW]
    rw [List.filter_cons, hd0, List.filter_cons, hd1, List.filter_nil]
    simp
  exact ⟨cRecommendW,
    recommend_excludes_seen cExp cSqrt cNoise (7/10) [cStudent] [cTutor0, cTutor1]
      [zeroRow] [1/2] [cInter] cMW cFitW_eq (by decide) "s0" 0 rfl 1 htop
      [("t1", ((1/10 : ℚ) : WithBot ℚ))] cRecommendW
      ("t1", ((1/10 : ℚ) : WithBot ℚ)) (List.mem_singleton.mpr rfl) 1 rfl⟩

/-- C10 counterexample: on a fitted model with zero tutors, `recommend` for
the known student id raises (numpy reduces an empty score array) instead of
returning the `min(top_n, 0) = 0` pairs the claim requires. -/
theorem recommend_length_cx :
    hybridFit cExp cSqrt (7/10) [cStudent] [] [zeroRow] [1/2] [] = .ok cM0 ∧
    cM0.tutors.length = 0 ∧
    (cM0.sid_to_idx "s0").isSome = true ∧
    (recommend cExp cNoise cM0 "s0" 5).isOk = false :=
  ⟨cFit0_eq, rfl, rfl, cRecommend0_fails⟩

theorem recommend_length_witness :
    ∃ out, recommend cExp cNoise cMW "s0" 5 = .ok out ∧
      out.length = min 5 cMW.tutors.length :=
  recommend_length cExp cSqrt cNoise (7/10) [cStudent] [cTutor0, cTutor1] [zeroRow]
    [1/2] [cInter] cMW cFitW_eq (by simp) "s0" 0 rfl 5

/-- C7 counterexample: on a fitted model with zero tutors, the student id is
known to the id map, yet `recommend` still fails — an empty-array reduction,
not a not-found condition — contradicting the claim that `recommend` does
not fail on known ids. -/
theorem not_found_iff_cx :
    hybridFit cExp cSqrt (7/10) [cStudent] [] [zeroRow] [1/2] [] = .ok cM0 ∧
    (cM0.sid_to_idx "s0").isSome = true ∧
    (recommend cExp cNoise cM0 "s0" 5).isOk = false :=
  ⟨cFit0_eq, rfl, cRecommend0_fails⟩

theorem not_found_iff_witness :
    ((recommend cExp cNoise cMW "s0" 5).isOk ↔ (cMW.sid_to_idx "s0").isSome) ∧
    ((get_student_profile cMW "s0").isOk ↔ (cMW.sid_to_idx "s0").isSome) ∧
    ((get_tutor_profile cMW "t0").isOk ↔ (cMW.tid_to_idx "t0").isSome) :=
  not_found_iff cExp cSqrt cNoise (7/10) [cStudent] [cTutor0, cTutor1] [zeroRow]
    [1/2] [cInter] cMW cFitW_eq (by simp) "s0" "t0" 5

theorem normalize_agg_spec_witness :
    ((1 : ℚ) - 0 < 1 / 10 ^ 12 →
      normalize_agg [(0 : ℚ), 1] = some ([(0 : ℚ), 1].map (fun _ => 1 / 10))) ∧
    (1 / 10 ^ 12 ≤ (1 : ℚ) - 0 →
      normalize_agg [(0 : ℚ), 1] =
        some ([(0 : ℚ), 1].map (fun z => (z - 0) / (1 - 0))) ∧
      ∀ z ∈ [(0 : ℚ), 1], 0 ≤ (z - 0) / (1 - 0) ∧ (z - 0) / (1 - 0) ≤ 1) := by
  have hmax : npMax [(0 : ℚ), 1] = some 1 := by
    simp [npMax, List.foldl]
  have hmin : npMin [(0 : ℚ), 1] = some 0 := by
    simp [npMin, List.foldl]
  exact normalize_agg_spec [(0 : ℚ), 1] 1 0 hmax hmin

/-- Concrete collaborative model for the C5 witness. -/
def cCF : CFModel :=
  { similarity_matrix := fun _ _ => 0
    sid_to_idx := fun q => if q = "s0" then some 0 else none
    tid_to_idx := fun _ => none
    interaction_matrix := fun _ _ => 0
    nT := 1 }

lemma cCF_scores : scores_for_student cCF "s0" = some [0] := by
  rw [scores_for_student]
  rw [show cCF.sid_to_idx "s0" = some 0 from rfl, Option.map_some']
  congr 1
  rw [show cCF.nT = 1 from rfl]
  rw [show List.range 1 = [0] from rfl]
  rw [List.map_cons, List.map_nil]
  have h0 : (if 0 < cCF.interaction_matrix 0 0 then (0 : ℚ)
      else ∑ j ∈ Finset.range 1, cCF.interaction_matrix 0 j *
        cCF.similarity_matrix j 0) = 0 := by
    rw [if_neg (by norm_num [cCF])]
    rw [Finset.sum_range_succ, Finset.sum_range_zero]
    norm_num [cCF]
  rw [h0]

theorem scores_for_student_spec_witness :
    [(0 : ℚ)].length = cCF.nT ∧
    ∀ t, t < cCF.nT →
      (0 < cCF.interaction_matrix 0 t → [(0 : ℚ)].getD t 0 = 0) ∧
      (¬ 0 < cCF.interaction_matrix 0 t →
        [(0 : ℚ)].getD t 0 = ∑ j ∈ Finset.range cCF.nT,
          cCF.interaction_matrix 0 j * cCF.similarity_matrix j t) :=
  scores_for_student_spec cCF "s0" 0 [0] rfl cCF_scores

theorem pair_features_bounds_witness :
    (∀ i : Fin 11, 0 ≤ pairFeatureVector cStudent cTutor0 i ∧
      pairFeatureVector cStudent cTutor0 i ≤ 1) ∧
    (∀ i : Fin 11, i.val ≤ 5 →
      pairFeatureVector cStudent cTutor0 i = 0 ∨
      pairFeatureVector cStudent cTutor0 i = 1) ∧
    pairFeatureVector cStudent cTutor0 10 =
      jaccard_text_similarity cStudent.profile_text cTutor0.profile_text :=
  pair_features_bounds cStudent cTutor0 (by decide) (by decide) (by decide) (by decide)
    (by decide) (by decide) (by decide) (by decide)

theorem predict_proba_unit_interval_witness :
    (∀ p ∈ predict_proba cExp zeroRow 0 [zeroRow], 0 ≤ p ∧ p ≤ 1) ∧
    (∀ z, sigmoid cExp z = 1 / (1 + cExp (-(npClip z (-500) 500)))) ∧
    (∀ z, -500 ≤ npClip z (-500) 500 ∧ npClip z (-500) 500 ≤ 500) :=
  predict_proba_unit_interval cExp (fun z => by norm_num [cExp]) zeroRow 0 [zeroRow]

theorem negative_sampling_spec_witness :
    (∀ t ∈ ((sampleNegativePairs (fun avail k => avail.take k) 2 1 [(0, 0)]).filter
      (fun p => p.1 = 0)).map (fun p => p.2), t ∉ interactedSet [(0, 0)] 0) ∧
    (((sampleNegativePairs (fun avail k => avail.take k) 2 1 [(0, 0)]).filter
      (fun p => p.1 = 0)).map (fun p => p.2)).Nodup :=
  negative_sampling_spec (fun avail k => avail.take k) 2 1 [(0, 0)]
    (fun avail k hnd hle =>
      ⟨List.Nodup.sublist (List.take_sublist k avail) hnd,
        fun x hx => List.Sublist.mem hx (List.take_sublist k avail)⟩) 0
